import Mathlib

/-!
Shallow embedding of `src/lib/rgbkeypad.py` (Pimoroni Pico RGB Keypad driver).

Modelling conventions:
* Python timestamps (`time.monotonic()`) are rational numbers; the multiple
  `time.monotonic()` reads inside a single `update` / `sleep_handler` call are
  modelled as the single timestamp passed to that call.
* Colour channels are integers; `[r, g, b] == [0, 0, 0]` comparisons are kept.
* The shared DotStar strip `pixels` is modelled by giving each key a `pixel`
  field for its own slot `pixels[number]`; a key only ever writes its own slot.
* A handler table (`press_functions` etc.) is an association list from mode
  labels to `none` (the Python `None` placeholder) or `some ()` (an attached
  callback).  Invoking a callback is modelled by emitting a `KEvent`; calling a
  `None` entry is the Python `TypeError`, a missing mode is the `KeyError`.
* Failures abort the remainder of the call, like a propagating Python
  exception; the partial mutations an aborted call leaves behind in Python are
  not observable in the claims treated here, so an aborted call returns only
  the error.
-/

/-- Python exceptions that the dispatch sites in `Key.update` can raise. -/
inductive PyErr where
  | keyError
  | typeError
  deriving DecidableEq, Repr

/-- An invocation of a user-registered callback (press / release / hold). -/
inductive KEvent where
  | press
  | release
  | hold
  deriving DecidableEq, Repr

/-- Model of `self.<table>[self.board_state](self)`: looking up a mode with no
entry raises `KeyError`; an entry holding the `None` placeholder is called and
raises `TypeError`; an attached callback runs (we record only that it ran). -/
def callFunc (tbl : List (String × Option Unit)) (mode : String) : Except PyErr Unit :=
  match tbl.lookup mode with
  | none => .error .keyError
  | some none => .error .typeError
  | some (some _) => .ok ()

/-- `number_to_xy` (src/lib/rgbkeypad.py:405-409). -/
def number_to_xy (number : ℕ) : ℕ × ℕ :=
  (number % 4, number / 4)

/-- `xy_to_number` (src/lib/rgbkeypad.py:400-402). -/
def xy_to_number (x y : ℕ) : ℕ :=
  x + y * 4

/-- State of one `Key` object (`class Key`, src/lib/rgbkeypad.py:236-397).
`last_state` and `time_since_last_press` start as Python `None`; `None` is
falsy and `time_since_last_press` is assigned before it is first read, so they
are modelled as `false` / `0`. -/
structure Key where
  number : ℕ
  current_state : Bool
  board_state : String
  key_state : Bool
  pressed : Bool
  last_state : Bool
  time_of_last_press : ℚ
  time_since_last_press : ℚ
  time_held_for : ℚ
  held : Bool
  hold_time : ℚ
  modifier : Bool
  rgb : ℤ × ℤ × ℤ
  lit : Bool
  x : ℕ
  y : ℕ
  pixel : ℤ × ℤ × ℤ
  press_functions : List (String × Option Unit)
  release_functions : List (String × Option Unit)
  hold_functions : List (String × Option Unit)
  press_func_fired : Bool
  hold_func_fired : Bool
  debounce : ℚ
  key_locked : Bool
  deriving DecidableEq, Repr

/-- `Key.set_led` (src/lib/rgbkeypad.py:349-358): black clears `lit` but keeps
the remembered `rgb`; a non-black triple sets `lit` and overwrites `rgb`; the
pixel slot always receives the requested triple. -/
def Key.set_led (k : Key) (r g b : ℤ) : Key :=
  let k := if (r, g, b) = ((0 : ℤ), (0 : ℤ), (0 : ℤ)) then { k with lit := false }
           else { k with lit := true, rgb := (r, g, b) }
  { k with pixel := (r, g, b) }

/-- `Key.led_on` (src/lib/rgbkeypad.py:360-364). -/
def Key.led_on (k : Key) : Key :=
  k.set_led k.rgb.1 k.rgb.2.1 k.rgb.2.2

/-- `Key.led_off` (src/lib/rgbkeypad.py:366-369). -/
def Key.led_off (k : Key) : Key :=
  k.set_led 0 0 0

/-- `Key.led_state` (src/lib/rgbkeypad.py:371-381). -/
def Key.led_state (k : Key) (state : ℤ) : Key :=
  if state = 0 then k.led_off
  else if state = 1 then k.led_on
  else k

/-- `Key.toggle_led` (src/lib/rgbkeypad.py:383-393). -/
def Key.toggle_led (k : Key) (rgb? : Option (ℤ × ℤ × ℤ)) : Key :=
  let k := match rgb? with
           | some c => { k with rgb := c }
           | none => k
  if k.lit then k.led_off else k.led_on

/-- `Key.__init__` (src/lib/rgbkeypad.py:244-269): `key_state` is the value of
`RGBKeyPad.states[number]` copied at construction time, `now` the construction
timestamp. -/
def Key.mk0 (number : ℕ) (key_state : Bool) (now : ℚ) : Key :=
  let base : Key :=
    { number := number
      current_state := key_state
      board_state := "default"
      key_state := false
      pressed := false
      last_state := false
      time_of_last_press := now
      time_since_last_press := 0
      time_held_for := 0
      held := false
      hold_time := 3/4
      modifier := false
      rgb := (0, 0, 0)
      lit := false
      x := (number_to_xy number).1
      y := (number_to_xy number).2
      pixel := (0, 0, 0)
      press_functions := [("default", none)]
      release_functions := [("default", none)]
      hold_functions := [("default", none)]
      press_func_fired := false
      hold_func_fired := false
      debounce := 1/8
      key_locked := false }
  base.led_off

/-- `Key.update` (src/lib/rgbkeypad.py:272-328), one polling cycle.  The
`self.press_functions is not None` style guards in the source are always true
(the tables are dictionaries from construction on) and are dropped.  Returns
the updated key and the callbacks invoked this cycle, or the exception raised
by a dispatch on a missing/empty handler entry. -/
def Key.update (k0 : Key) (now : ℚ) : Except PyErr (Key × List KEvent) :=
  let tslp := now - k0.time_of_last_press
  let locked := decide (tslp < k0.debounce)
  let pressed := k0.current_state
  let k1 : Key := { k0 with time_since_last_press := tslp, key_locked := locked,
                            key_state := pressed, pressed := pressed }
  let fire1 := pressed && !k1.press_func_fired && !locked
  match (if fire1 then callFunc k1.press_functions k1.board_state else .ok ()) with
  | .error e => .error e
  | .ok _ =>
    let k2 : Key := if fire1 then { k1 with press_func_fired := true } else k1
    let fire2 := !pressed && k2.last_state
    match (if fire2 then callFunc k2.release_functions k2.board_state else .ok ()) with
    | .error e => .error e
    | .ok _ =>
      let k3 : Key := if fire2 then { k2 with last_state := false, press_func_fired := false }
                      else k2
      let k4 : Key :=
        if !pressed then { k3 with time_held_for := 0, last_state := false }
        else if !k3.last_state then { k3 with time_of_last_press := now, last_state := true }
        else { k3 with time_held_for := now - k3.time_of_last_press, last_state := true }
      let hcond := decide (k4.hold_time < k4.time_held_for)
      let fire3 := hcond && !k4.hold_func_fired
      match (if fire3 then callFunc k4.hold_functions k4.board_state else .ok ()) with
      | .error e => .error e
      | .ok _ =>
        let k5 : Key :=
          if hcond then
            (if fire3 then { k4 with held := true, hold_func_fired := true }
             else { k4 with held := true })
          else { k4 with held := false, hold_func_fired := false }
        .ok (k5, (if fire1 then [KEvent.press] else [])
                 ++ (if fire2 then [KEvent.release] else [])
                 ++ (if fire3 then [KEvent.hold] else []))

/-- Solved (branch-free per field) form of one successful `Key.update` cycle;
the lemmas `Key.update_idle`, `Key.update_release`, `Key.update_press_first`
and `Key.update_press_cont` prove that it agrees with `Key.update` whenever
every attempted dispatch succeeds. -/
def Key.step (k : Key) (now : ℚ) : Key × List KEvent :=
  let tslp := now - k.time_of_last_press
  let locked := decide (tslp < k.debounce)
  let pressed := k.current_state
  let fire1 := pressed && !k.press_func_fired && !locked
  let fire2 := !pressed && k.last_state
  let thf : ℚ := if !pressed then 0
                 else if !k.last_state then k.time_held_for
                 else now - k.time_of_last_press
  let hcond := decide (k.hold_time < thf)
  let fire3 := hcond && !k.hold_func_fired
  ({ k with
      time_since_last_press := tslp
      key_locked := locked
      key_state := pressed
      pressed := pressed
      last_state := pressed
      press_func_fired :=
        if pressed then k.press_func_fired || fire1
        else if k.last_state then false else k.press_func_fired
      time_of_last_press := if pressed && !k.last_state then now else k.time_of_last_press
      time_held_for := thf
      held := hcond
      hold_func_fired := hcond },
   (if fire1 then [KEvent.press] else []) ++ (if fire2 then [KEvent.release] else [])
     ++ (if fire3 then [KEvent.hold] else []))

/-- Runs `Key.update` over a list of cycles; each cycle feeds the key the
given raw boolean state (the owning keypad writing the mask-derived state) and
timestamp.  Returns the final key and the per-cycle callback invocations. -/
def Key.runUpdates (k : Key) (inputs : List (Bool × ℚ)) :
    Except PyErr (Key × List (List KEvent)) :=
  match inputs with
  | [] => .ok (k, [])
  | (b, t) :: rest =>
    match Key.update { k with current_state := b } t with
    | .error e => .error e
    | .ok (k1, evs) =>
      match Key.runUpdates k1 rest with
      | .error e => .error e
      | .ok (k2, evss) => .ok (k2, evs :: evss)

/-- Boolean strict ascending-chain test for timestamp sequences. -/
def chainLt : ℚ → List ℚ → Bool
  | _, [] => true
  | a, b :: l => decide (a < b) && chainLt b l

/-- In-place update of one list element (`self.keys[number]` mutation); out of
range indices leave the list unchanged (Python would raise `IndexError`, which
no claim exercises). -/
def listModify (l : List α) (n : ℕ) (f : α → α) : List α :=
  match l, n with
  | [], _ => []
  | a :: t, 0 => f a :: t
  | a :: t, n + 1 => a :: listModify t n f

/-- State of the `RGBKeyPad` object (src/lib/rgbkeypad.py:49-163).  The bus
device, chip-select pin and DotStar handle are external collaborators; the
per-key `pixel` fields model the strip.  `time_since_last_press` and
`last_led_states` start as Python `None`; the former is assigned before first
read and is modelled as `0`, the latter as an `Option`. -/
structure RGBKeyPad where
  states : List Bool
  time_of_last_press : ℚ
  time_since_last_press : ℚ
  last_led_states : Option (List (ℤ × ℤ × ℤ))
  led_sleep_enabled : Bool
  led_sleep_time : ℚ
  sleeping : Bool
  was_asleep : Bool
  keys : List Key
  deriving DecidableEq, Repr

/-- `RGBKeyPad.__init__` (src/lib/rgbkeypad.py:51-74) at construction time
`now`: each key receives the value `states[i]` (all `0`) by value. -/
def RGBKeyPad.mk0 (now : ℚ) : RGBKeyPad :=
  { states := List.replicate 16 false
    time_of_last_press := now
    time_since_last_press := 0
    last_led_states := none
    led_sleep_enabled := true
    led_sleep_time := 1
    sleeping := false
    was_asleep := false
    keys := (List.range 16).map (fun i => Key.mk0 i false now) }

/-- `RGBKeyPad.get_states` (src/lib/rgbkeypad.py:143-148). -/
def RGBKeyPad.get_states (p : RGBKeyPad) : List Bool :=
  p.keys.map (fun k => k.key_state)

/-- `RGBKeyPad.get_pressed` (src/lib/rgbkeypad.py:150-154). -/
def RGBKeyPad.get_pressed (p : RGBKeyPad) : List ℕ :=
  (p.keys.filter (fun k => k.key_state)).map (fun k => k.number)

/-- `RGBKeyPad.any_pressed` (src/lib/rgbkeypad.py:156-159). -/
def RGBKeyPad.any_pressed (p : RGBKeyPad) : Bool :=
  p.get_states.any (fun b => b)

/-- `RGBKeyPad.none_pressed` (src/lib/rgbkeypad.py:161-163). -/
def RGBKeyPad.none_pressed (p : RGBKeyPad) : Bool :=
  !p.get_states.any (fun b => b)

/-- `RGBKeyPad.set_led` (src/lib/rgbkeypad.py:123-126).  Note: no check of
`self.sleeping` here — the request goes straight to the key. -/
def RGBKeyPad.set_led (p : RGBKeyPad) (number : ℕ) (r g b : ℤ) : RGBKeyPad :=
  { p with keys := listModify p.keys number (fun k => k.set_led r g b) }

/-- `RGBKeyPad.set_all` (src/lib/rgbkeypad.py:128-136): while sleeping the
request is redirected to `led_off` on every key. -/
def RGBKeyPad.set_all (p : RGBKeyPad) (r g b : ℤ) : RGBKeyPad :=
  if !p.sleeping then { p with keys := p.keys.map (fun k => k.set_led r g b) }
  else { p with keys := p.keys.map (fun k => k.led_off) }

/-- `RGBKeyPad.clear_all` (src/lib/rgbkeypad.py:138-141). -/
def RGBKeyPad.clear_all (p : RGBKeyPad) : RGBKeyPad :=
  { p with keys := p.keys.map (fun k => k.led_off) }

/-- `RGBKeyPad.sleep_handler` (src/lib/rgbkeypad.py:99-121).  The restore loop
indexes `self.last_led_states`, which is always a populated list when
`was_asleep` holds; the unreachable `None` case is modelled by `Option.getD`
with an empty list. -/
def RGBKeyPad.sleep_handler (p0 : RGBKeyPad) (now : ℚ) : RGBKeyPad :=
  let p1 := if p0.any_pressed then { p0 with time_of_last_press := now, sleeping := false }
            else p0
  let p2 := { p1 with time_since_last_press := now - p1.time_of_last_press }
  let p3 :=
    if p2.led_sleep_enabled && !p2.sleeping then
      (if p2.led_sleep_time < p2.time_since_last_press then
        let snapshot := p2.keys.map (fun k => if k.lit then k.rgb else ((0:ℤ), (0:ℤ), (0:ℤ)))
        let q := { p2 with sleeping := true, last_led_states := some snapshot }
        let q := q.set_all 0 0 0
        { q with was_asleep := true }
      else p2)
    else p2
  if !p3.sleeping && p3.was_asleep then
    { p3 with
      keys := List.zipWith (fun k c => Key.set_led k c.1 c.2.1 c.2.2) p3.keys
                (p3.last_led_states.getD [])
      was_asleep := false }
  else p3

/-- The mask-to-states conversion inside `RGBKeyPad.update`
(src/lib/rgbkeypad.py:85-90): `states[i] = 1` exactly when bit `i` of the raw
mask is `0` (inverted-logic bus convention). -/
def readMaskStates (mask : ℕ) : List Bool :=
  (List.range 16).map (fun i => decide ((1 <<< i) &&& mask = 0))

/-- The per-key update loop of `RGBKeyPad.update` (src/lib/rgbkeypad.py:92-93):
`for _key in self.keys: _key.update()`.  The callbacks' return values are
external effects and are dropped at this level. -/
def keysUpdate (ks : List Key) (now : ℚ) : Except PyErr (List Key) :=
  match ks with
  | [] => .ok []
  | k :: rest =>
    match k.update now with
    | .error e => .error e
    | .ok (k1, _) =>
      match keysUpdate rest now with
      | .error e => .error e
      | .ok rest1 => .ok (k1 :: rest1)

/-- `RGBKeyPad.update` (src/lib/rgbkeypad.py:76-96): read the raw mask once,
recompute `states`, update every key, then (since `ENABLE_SLEEP` is `True`)
run the sleep handler.  `mask` is the 16-bit word `result[0] | result[1] << 8`
read from the bus collaborator. -/
def RGBKeyPad.update (p : RGBKeyPad) (mask : ℕ) (now : ℚ) : Except PyErr RGBKeyPad :=
  let p1 := { p with states := readMaskStates mask }
  match keysUpdate p1.keys now with
  | .error e => .error e
  | .ok keys => .ok (RGBKeyPad.sleep_handler { p1 with keys := keys } now)

/-- Python `int()` on a rational value: truncation toward zero. -/
def intTrunc (x : ℚ) : ℤ :=
  x.num.tdiv x.den

/-- `hsv_to_rgb` (src/lib/rgbkeypad.py:412-436), with the float arithmetic of
the source read as exact rational arithmetic.  Note the source computes `f`
from `i` before `i %= 6` and applies the six `if i == _` checks sequentially
to the default grey `[v, v, v]`. -/
def hsv_to_rgb (h s v : ℚ) : ℤ × ℤ × ℤ :=
  let rgb : ℚ × ℚ × ℚ := (v, v, v)
  let i0 : ℤ := intTrunc (h * 6)
  let f : ℚ := h * 6 - (i0 : ℚ)
  let p := v * (1 - s)
  let q := v * (1 - s * f)
  let t := v * (1 - s * (1 - f))
  let i := i0 % 6
  let rgb := if i = 0 then (v, t, p) else rgb
  let rgb := if i = 1 then (q, v, p) else rgb
  let rgb := if i = 2 then (p, v, t) else rgb
  let rgb := if i = 3 then (p, q, v) else rgb
  let rgb := if i = 4 then (t, p, v) else rgb
  let rgb := if i = 5 then (v, p, q) else rgb
  (intTrunc (rgb.1 * 255), intTrunc (rgb.2.1 * 255), intTrunc (rgb.2.2 * 255))

/-- Modelled from the spec (§4.1): the six-sector hexagonal HSV decomposition
in the spec's own words — sector index `⌊h·6⌋ mod 6`, fractional part
`f = h·6 − ⌊h·6⌋`, intermediates `p = v(1−s)`, `q = v(1−s·f)`,
`t = v(1−s·(1−f))`, and the sector-to-(r,g,b) table.  Used only as the
reference side of the refinement claim about `hsv_to_rgb`. -/
def hsvSpecSector (h s v : ℚ) : ℚ × ℚ × ℚ :=
  let i := Int.floor (h * 6) % 6
  let f := h * 6 - Int.floor (h * 6)
  let p := v * (1 - s)
  let q := v * (1 - s * f)
  let t := v * (1 - s * (1 - f))
  if i = 0 then (v, t, p)
  else if i = 1 then (q, v, p)
  else if i = 2 then (p, v, t)
  else if i = 3 then (p, q, v)
  else if i = 4 then (t, p, v)
  else (v, p, q)

/-- Application-level actions possible while the keypad sleeps: a `set_all`
request or a polling cycle of the sleep coordinator at some timestamp. -/
inductive SleepOp where
  | setAll (r g b : ℤ)
  | cycle (t : ℚ)

/-- Applies a sequence of while-asleep actions. -/
def RGBKeyPad.applySleepOps (p : RGBKeyPad) : List SleepOp → RGBKeyPad
  | [] => p
  | SleepOp.setAll r g b :: rest => (p.set_all r g b).applySleepOps rest
  | SleepOp.cycle t :: rest => (p.sleep_handler t).applySleepOps rest

/-- Scenario device: key `i` reports pressed in the current cycle (the raw
mask bit for key `i` went low and the per-key update recorded it). -/
def RGBKeyPad.pressAt (p : RGBKeyPad) (i : ℕ) : RGBKeyPad :=
  { p with keys := listModify p.keys i (fun k => { k with key_state := true }) }

/-- Test fixture: a key constructed at time `0` (`Key(0, pixels, 0)`). -/
def kDefault : Key :=
  Key.mk0 0 false 0

/-- Test fixture: a key constructed at time `0` with a press, release and hold
callback attached for the `'default'` mode (as `RGBKeyPad.on_press` etc. do). -/
def testKey : Key :=
  { Key.mk0 0 false 0 with
      press_functions := [("default", some ())]
      release_functions := [("default", some ())]
      hold_functions := [("default", some ())] }

/-- Test fixture: a fresh key that currently reads pressed, with no callback
attached (the `'default'` table entry is still the `None` placeholder). -/
def kC2 : Key :=
  { Key.mk0 0 false 0 with current_state := true }

/-- Test fixture: a key whose LED is lit with the remembered colour `(5, 6, 7)`. -/
def kLit : Key :=
  { kDefault with lit := true, rgb := (5, 6, 7), pixel := (5, 6, 7) }

/-- Test fixture: a one-key keypad holding the lit key `kLit`. -/
def pW : RGBKeyPad :=
  { RGBKeyPad.mk0 0 with keys := [kLit] }

/-- Test fixture: a one-key keypad holding the fresh key `kDefault`. -/
def pC1 : RGBKeyPad :=
  { RGBKeyPad.mk0 0 with keys := [kDefault] }

/-- Test fixture: a keypad with no keys (the degenerate update cycle). -/
def pE : RGBKeyPad :=
  { RGBKeyPad.mk0 0 with keys := [] }

/-- The keypad state reached by `pE.update 65534 1`. -/
def pE2 : RGBKeyPad :=
  RGBKeyPad.sleep_handler { pE with states := readMaskStates 65534, keys := [] } 1

/-! ### Basic lemmas about the per-key LED operations -/

theorem Key.set_led_pixel (k : Key) (r g b : ℤ) : (k.set_led r g b).pixel = (r, g, b) := by
  unfold Key.set_led
  split <;> rfl

theorem Key.set_led_black (k : Key) : (k.set_led 0 0 0).lit = false ∧ (k.set_led 0 0 0).rgb = k.rgb := by
  unfold Key.set_led
  simp

theorem Key.set_led_nonblack (k : Key) (r g b : ℤ) (h : ¬((r, g, b) = ((0:ℤ), (0:ℤ), (0:ℤ)))) :
    (k.set_led r g b).lit = true ∧ (k.set_led r g b).rgb = (r, g, b) := by
  unfold Key.set_led
  rw [if_neg h]
  exact ⟨rfl, rfl⟩

theorem Key.set_led_key_state (k : Key) (r g b : ℤ) :
    (k.set_led r g b).key_state = k.key_state ∧ (k.set_led r g b).current_state = k.current_state := by
  unfold Key.set_led
  split <;> exact ⟨rfl, rfl⟩

/-! ### One-cycle characterisations of `Key.update`

Each lemma fixes the booleans that select one of the four shapes a cycle can
take (idle, release, first pressed cycle, continued pressed cycle), assumes
the dispatches attempted in that shape succeed, and identifies `Key.update`
with the solved form `Key.step`. -/

theorem Key.update_idle (k : Key) (now : ℚ)
    (hcs : k.current_state = false) (hls : k.last_state = false)
    (hht : 0 ≤ k.hold_time) :
    k.update now = .ok (k.step now) := by
  have hd : decide (k.hold_time < (0:ℚ)) = false := decide_eq_false (not_lt.2 hht)
  simp only [Key.update, Key.step, hcs, hls, Bool.false_and, Bool.and_false, Bool.not_false,
    Bool.true_and, Bool.and_true, Bool.not_true, Bool.false_or, Bool.or_false,
    if_false, if_true, Bool.false_eq_true, Bool.true_eq_false, ite_false, ite_true, hd]

theorem Key.update_release (k : Key) (now : ℚ)
    (hcs : k.current_state = false) (hls : k.last_state = true)
    (hht : 0 ≤ k.hold_time)
    (hr : callFunc k.release_functions k.board_state = .ok ()) :
    k.update now = .ok (k.step now) := by
  have hd : decide (k.hold_time < (0:ℚ)) = false := decide_eq_false (not_lt.2 hht)
  simp only [Key.update, Key.step, hcs, hls, hr, Bool.false_and, Bool.and_false,
    Bool.not_false, Bool.true_and, Bool.and_true, Bool.not_true, Bool.false_or, Bool.or_false,
    if_false, if_true, Bool.false_eq_true, Bool.true_eq_false, ite_false, ite_true, hd]

theorem Key.update_press_first (k : Key) (now : ℚ)
    (hcs : k.current_state = true) (hls : k.last_state = false)
    (hpf : k.press_func_fired = false) (hthf : k.time_held_for = 0)
    (hht : 0 ≤ k.hold_time)
    (hp : callFunc k.press_functions k.board_state = .ok ()) :
    k.update now = .ok (k.step now) := by
  have hd : decide (k.hold_time < (0:ℚ)) = false := decide_eq_false (not_lt.2 hht)
  by_cases hlk : now - k.time_of_last_press < k.debounce <;>
    simp only [Key.update, Key.step, hcs, hls, hpf, hthf, hp, hlk, hd, decide_True, decide_False,
      iff_true, iff_false, Bool.false_and, Bool.and_false, Bool.not_false, Bool.true_and,
      Bool.and_true, Bool.not_true, Bool.false_or, Bool.or_false, Bool.true_or, Bool.or_true,
      if_false, if_true, Bool.false_eq_true, Bool.true_eq_false, ite_false, ite_true,
      decide_eq_true_eq, decide_eq_false_iff_not, not_lt, eq_self_iff_true, and_self]

theorem Key.update_press_cont (k : Key) (now : ℚ)
    (hcs : k.current_state = true) (hls : k.last_state = true)
    (hp : callFunc k.press_functions k.board_state = .ok ())
    (hh : callFunc k.hold_functions k.board_state = .ok ()) :
    k.update now = .ok (k.step now) := by
  rcases hpf : k.press_func_fired <;> rcases hhof : k.hold_func_fired <;>
    by_cases hlk : now - k.time_of_last_press < k.debounce <;>
      by_cases hhc : k.hold_time < now - k.time_of_last_press <;>
        simp only [Key.update, Key.step, hcs, hls, hpf, hhof, hp, hh, hlk, hhc,
          decide_True, decide_False, iff_true, iff_false, Bool.false_and, Bool.and_false,
          Bool.not_false, Bool.true_and, Bool.and_true, Bool.not_true, Bool.false_or,
          Bool.or_false, Bool.true_or, Bool.or_true, if_false, if_true, Bool.false_eq_true,
          Bool.true_eq_false, ite_false, ite_true, decide_eq_true_eq, decide_eq_false_iff_not,
          not_lt, eq_self_iff_true, and_self]

/-! ### Solved forms of one cycle per scenario -/

theorem Key.step_idle (k : Key) (now : ℚ)
    (hcs : k.current_state = false) (hls : k.last_state = false)
    (hht : 0 ≤ k.hold_time) :
    k.step now =
      ({ k with time_since_last_press := now - k.time_of_last_press,
                key_locked := decide (now - k.time_of_last_press < k.debounce),
                key_state := false, pressed := false, last_state := false,
                time_held_for := 0, held := false, hold_func_fired := false }, []) := by
  have hd : decide (k.hold_time < (0:ℚ)) = false := decide_eq_false (not_lt.2 hht)
  simp only [Key.step, hcs, hls, hd, Bool.false_and, Bool.and_false, Bool.not_false,
    Bool.true_and, Bool.and_true, Bool.not_true, Bool.false_or, Bool.or_false,
    if_false, if_true, Bool.false_eq_true, Bool.true_eq_false, ite_false, ite_true,
    List.append_nil, List.nil_append]

theorem Key.step_release (k : Key) (now : ℚ)
    (hcs : k.current_state = false) (hls : k.last_state = true)
    (hht : 0 ≤ k.hold_time) :
    k.step now =
      ({ k with time_since_last_press := now - k.time_of_last_press,
                key_locked := decide (now - k.time_of_last_press < k.debounce),
                key_state := false, pressed := false, last_state := false,
                press_func_fired := false,
                time_held_for := 0, held := false, hold_func_fired := false },
       [KEvent.release]) := by
  have hd : decide (k.hold_time < (0:ℚ)) = false := decide_eq_false (not_lt.2 hht)
  simp only [Key.step, hcs, hls, hd, Bool.false_and, Bool.and_false, Bool.not_false,
    Bool.true_and, Bool.and_true, Bool.not_true, Bool.false_or, Bool.or_false,
    if_false, if_true, Bool.false_eq_true, Bool.true_eq_false, ite_false, ite_true,
    List.append_nil, List.nil_append]

theorem Key.step_press_first (k : Key) (now : ℚ)
    (hcs : k.current_state = true) (hls : k.last_state = false)
    (hpf : k.press_func_fired = false) (hthf : k.time_held_for = 0)
    (hht : 0 ≤ k.hold_time) :
    k.step now =
      ({ k with time_since_last_press := now - k.time_of_last_press,
                key_locked := decide (now - k.time_of_last_press < k.debounce),
                key_state := true, pressed := true, last_state := true,
                press_func_fired := !decide (now - k.time_of_last_press < k.debounce),
                time_of_last_press := now,
                time_held_for := 0, held := false, hold_func_fired := false },
       if decide (now - k.time_of_last_press < k.debounce) then [] else [KEvent.press]) := by
  have hd : decide (k.hold_time < (0:ℚ)) = false := decide_eq_false (not_lt.2 hht)
  by_cases hlk : now - k.time_of_last_press < k.debounce <;>
    simp only [Key.step, hcs, hls, hpf, hthf, hd, hlk, decide_True, decide_False,
      Bool.false_and, Bool.and_false, Bool.not_false, Bool.true_and, Bool.and_true,
      Bool.not_true, Bool.false_or, Bool.or_false, if_false, if_true, Bool.false_eq_true,
      Bool.true_eq_false, ite_false, ite_true, List.append_nil, List.nil_append]

theorem Key.step_press_cont (k : Key) (now : ℚ)
    (hcs : k.current_state = true) (hls : k.last_state = true) :
    k.step now =
      ({ k with time_since_last_press := now - k.time_of_last_press,
                key_locked := decide (now - k.time_of_last_press < k.debounce),
                key_state := true, pressed := true, last_state := true,
                press_func_fired :=
                  k.press_func_fired || !decide (now - k.time_of_last_press < k.debounce),
                time_held_for := now - k.time_of_last_press,
                held := decide (k.hold_time < (now - k.time_of_last_press)),
                hold_func_fired := decide (k.hold_time < (now - k.time_of_last_press)) },
       (if k.press_func_fired || decide (now - k.time_of_last_press < k.debounce) then []
        else [KEvent.press])
         ++ (if decide (k.hold_time < (now - k.time_of_last_press)) && !k.hold_func_fired
             then [KEvent.hold] else [])) := by
  rcases hpf : k.press_func_fired <;> rcases hhof : k.hold_func_fired <;>
    by_cases hlk : now - k.time_of_last_press < k.debounce <;>
      by_cases hhc : k.hold_time < now - k.time_of_last_press <;>
        simp only [Key.step, hcs, hls, hpf, hhof, hlk, hhc, decide_True, decide_False,
          Bool.false_and, Bool.and_false, Bool.not_false, Bool.true_and, Bool.and_true,
          Bool.not_true, Bool.false_or, Bool.or_false, Bool.true_or, Bool.or_true,
          if_false, if_true, Bool.false_eq_true, Bool.true_eq_false, ite_false, ite_true,
          List.append_nil, List.nil_append]

theorem count_fire (e e' : KEvent) (c : Bool) :
    (if c then [e] else []).count e' = if c ∧ e = e' then 1 else 0 := by
  rcases c <;> rcases e <;> rcases e' <;> simp [List.count_cons, List.count_nil]

theorem count_ite_single (e' e : KEvent) (P : Prop) [Decidable P] :
    List.count e' (if P then [e] else []) = if P ∧ e = e' then 1 else 0 := by
  rcases e <;> rcases e' <;> split <;> rename_i h <;>
    simp [List.count_cons, List.count_nil, h]

theorem count_ite_single' (e' e : KEvent) (P : Prop) [Decidable P] :
    List.count e' (if P then [] else [e]) = if ¬P ∧ e = e' then 1 else 0 := by
  rcases e <;> rcases e' <;> split <;> rename_i h <;>
    simp [List.count_cons, List.count_nil, h]

set_option maxHeartbeats 1000000 in
theorem Key.run_pressed_cont (t1 : ℚ) :
    ∀ (ts : List ℚ) (k : Key) (tprev : ℚ),
    k.last_state = true →
    k.time_of_last_press = t1 →
    k.time_held_for = tprev - t1 →
    k.hold_func_fired = decide (k.hold_time < tprev - t1) →
    chainLt tprev ts = true →
    callFunc k.press_functions k.board_state = .ok () →
    callFunc k.hold_functions k.board_state = .ok () →
    ∃ k' evss,
      k.runUpdates (ts.map (fun t => (true, t))) = .ok (k', evss) ∧
      k'.press_functions = k.press_functions ∧
      k'.release_functions = k.release_functions ∧
      k'.hold_functions = k.hold_functions ∧
      k'.board_state = k.board_state ∧
      k'.debounce = k.debounce ∧
      k'.hold_time = k.hold_time ∧
      k'.last_state = true ∧
      k'.time_of_last_press = t1 ∧
      k'.time_held_for = ts.getLastD tprev - t1 ∧
      k'.hold_func_fired = decide (k.hold_time < ts.getLastD tprev - t1) ∧
      k'.press_func_fired
        = (k.press_func_fired || ts.any fun u => !decide (u - t1 < k.debounce)) ∧
      evss.length = ts.length ∧
      evss.flatten.count KEvent.press =
        (if k.press_func_fired then 0
         else if ts.any (fun u => !decide (u - t1 < k.debounce)) then 1 else 0) ∧
      evss.flatten.count KEvent.release = 0 ∧
      evss.flatten.count KEvent.hold =
        (if k.hold_func_fired then 0
         else if ts.any (fun u => decide (k.hold_time < u - t1)) then 1 else 0) := by
  intro ts
  induction ts with
  | nil =>
    intro k tprev hls htolp hthf hhof hch hp hh
    refine ⟨k, [], rfl, rfl, rfl, rfl, rfl, rfl, rfl, hls, htolp, ?_, ?_, ?_, rfl, ?_, rfl, ?_⟩
    · simpa using hthf
    · simpa using hhof
    · simp
    · simp [ite_self]
    · simp [ite_self]
  | cons u rest ih =>
    intro k tprev hls htolp hthf hhof hch hp hh
    have hch' : tprev < u ∧ chainLt u rest = true := by
      simpa [chainLt, Bool.and_eq_true, decide_eq_true_eq] using hch
    have hupd := Key.update_press_cont { k with current_state := true } u rfl hls hp hh
    have hstep := Key.step_press_cont { k with current_state := true } u rfl hls
    obtain ⟨k', evss, hrun, hc1, hc2, hc3, hc4, hc5, hc6, hls', htolp', hthf', hhof', hpf',
      hlen, hcp, hcr, hch2⟩ :=
      ih ({ k with
            current_state := true
            time_since_last_press := u - k.time_of_last_press
            key_locked := decide (u - k.time_of_last_press < k.debounce)
            key_state := true
            pressed := true
            last_state := true
            press_func_fired :=
              k.press_func_fired || !decide (u - k.time_of_last_press < k.debounce)
            time_held_for := u - k.time_of_last_press
            held := decide (k.hold_time < (u - k.time_of_last_press))
            hold_func_fired := decide (k.hold_time < (u - k.time_of_last_press)) }) u
        rfl (by simpa using htolp) (by simp [htolp]) (by simp [htolp]) hch'.2
        (by simpa using hp) (by simpa using hh)
    refine ⟨k',
      ((if k.press_func_fired || decide (u - k.time_of_last_press < k.debounce) then []
        else [KEvent.press])
        ++ (if decide (k.hold_time < (u - k.time_of_last_press)) && !k.hold_func_fired
            then [KEvent.hold] else [])) :: evss,
      ?_, ?_, ?_, ?_, ?_, ?_, ?_, hls', ?_, ?_, ?_, ?_, ?_, ?_, ?_, ?_⟩
    · simp only [List.map_cons, Key.runUpdates, hupd, hstep, hrun]
    · simpa using hc1
    · simpa using hc2
    · simpa using hc3
    · simpa using hc4
    · simpa using hc5
    · simpa using hc6
    · simpa using htolp'
    · rw [List.getLastD_cons]
      exact hthf'
    · rw [List.getLastD_cons]
      simpa using hhof'
    · rw [hpf']
      simp only [htolp]
      rcases hpf : k.press_func_fired <;>
        by_cases hLu : u - t1 < k.debounce <;>
          simp [hLu, List.any_cons, decide_eq_true_eq]
    · simpa using hlen
    · have hcp' : evss.flatten.count KEvent.press
          = (if (k.press_func_fired || !decide (u - t1 < k.debounce)) = true then 0
             else if rest.any (fun v => !decide (v - t1 < k.debounce)) then 1 else 0) := by
        simpa [htolp] using hcp
      simp only [List.flatten_cons, List.count_append, count_fire, hcp', htolp]
      rcases hpf : k.press_func_fired <;> by_cases hLu : u - t1 < k.debounce <;>
        simp [hpf, hLu, List.any_cons, count_ite_single, count_ite_single]
    · have hcr' : evss.flatten.count KEvent.release = 0 := hcr
      simp only [List.flatten_cons, List.count_append, hcr']
      simp [count_ite_single, count_ite_single']
    · have hch2' : evss.flatten.count KEvent.hold
          = (if decide (k.hold_time < u - t1) = true then 0
             else if rest.any (fun v => decide (k.hold_time < v - t1)) then 1 else 0) := by
        simpa [htolp] using hch2
      have hup : tprev < u := hch'.1
      simp only [List.flatten_cons, List.count_append, count_fire, hch2', htolp, hhof]
      by_cases hctp : k.hold_time < tprev - t1 <;> by_cases hcu : k.hold_time < u - t1
      · simp [hctp, hcu, List.any_cons, count_ite_single, count_ite_single']
      · exact absurd (by linarith : k.hold_time < u - t1) hcu
      · simp [hctp, hcu, List.any_cons, count_ite_single, count_ite_single']
      · simp [hctp, hcu, List.any_cons, count_ite_single, count_ite_single']

theorem Key.runUpdates_append (xs : List (Bool × ℚ)) :
    ∀ (k k1 k2 : Key) (ys : List (Bool × ℚ)) (e1 e2 : List (List KEvent)),
    k.runUpdates xs = .ok (k1, e1) → k1.runUpdates ys = .ok (k2, e2) →
    k.runUpdates (xs ++ ys) = .ok (k2, e1 ++ e2) := by
  induction xs with
  | nil =>
    intro k k1 k2 ys e1 e2 h1 h2
    simp only [Key.runUpdates, Except.ok.injEq, Prod.mk.injEq] at h1
    obtain ⟨h1a, h1b⟩ := h1
    subst h1a
    subst h1b
    simpa using h2
  | cons x xs ih =>
    intro k k1 k2 ys e1 e2 h1 h2
    obtain ⟨b, t⟩ := x
    rw [List.cons_append]
    rw [Key.runUpdates] at h1 ⊢
    cases hu : Key.update { k with current_state := b } t with
    | error e => rw [hu] at h1; exact absurd h1 (by simp)
    | ok pr =>
      obtain ⟨ka, evs⟩ := pr
      rw [hu] at h1
      dsimp only at h1 ⊢
      cases hrest : Key.runUpdates ka xs with
      | error e => rw [hrest] at h1; exact absurd h1 (by simp)
      | ok pr2 =>
        obtain ⟨kb, evssb⟩ := pr2
        rw [hrest] at h1
        dsimp only at h1
        simp only [Except.ok.injEq, Prod.mk.injEq] at h1
        obtain ⟨rfl, rfl⟩ := h1
        rw [ih ka kb k2 ys evssb e2 hrest h2]
        simp

theorem Key.run_idle (us : List ℚ) :
    ∀ (k : Key),
    k.last_state = false → k.press_func_fired = false → 0 ≤ k.hold_time →
    ∃ k', k.runUpdates (us.map (fun t => (false, t)))
            = .ok (k', us.map (fun _ => ([] : List KEvent))) ∧
      k'.press_functions = k.press_functions ∧
      k'.release_functions = k.release_functions ∧
      k'.hold_functions = k.hold_functions ∧
      k'.board_state = k.board_state ∧
      k'.debounce = k.debounce ∧
      k'.hold_time = k.hold_time ∧
      k'.time_of_last_press = k.time_of_last_press ∧
      k'.last_state = false ∧ k'.press_func_fired = false ∧
      k'.time_held_for = (if us.isEmpty then k.time_held_for else 0) ∧
      k'.held = (if us.isEmpty then k.held else false) ∧
      k'.hold_func_fired = (if us.isEmpty then k.hold_func_fired else false) := by
  induction us with
  | nil =>
    intro k hls hpf hht
    exact ⟨k, rfl, rfl, rfl, rfl, rfl, rfl, rfl, rfl, hls, hpf, by simp, by simp, by simp⟩
  | cons u us ih =>
    intro k hls hpf hht
    have hupd := Key.update_idle { k with current_state := false } u rfl hls hht
    have hstep := Key.step_idle { k with current_state := false } u rfl hls hht
    obtain ⟨k', hrun, hc1, hc2, hc3, hc4, hc5, hc6, htolp', hls', hpf', hthf', hheld', hhof'⟩ :=
      ih ({ k with
            current_state := false
            time_since_last_press := u - k.time_of_last_press
            key_locked := decide (u - k.time_of_last_press < k.debounce)
            key_state := false
            pressed := false
            last_state := false
            time_held_for := 0
            held := false
            hold_func_fired := false }) rfl hpf hht
    refine ⟨k', ?_, ?_, ?_, ?_, ?_, ?_, ?_, ?_, hls', hpf', ?_, ?_, ?_⟩
    · simp only [List.map_cons, Key.runUpdates, hupd, hstep, hrun]
    · simpa using hc1
    · simpa using hc2
    · simpa using hc3
    · simpa using hc4
    · simpa using hc5
    · simpa using hc6
    · simpa using htolp'
    · simpa using hthf'
    · simpa using hheld'
    · simpa using hhof'

theorem Key.run_episode (k : Key) (t1 : ℚ) (ts : List ℚ)
    (hls : k.last_state = false)
    (hpf : k.press_func_fired = false)
    (hthf : k.time_held_for = 0)
    (hht : 0 ≤ k.hold_time)
    (hch : chainLt t1 ts = true)
    (hp : callFunc k.press_functions k.board_state = .ok ())
    (hh : callFunc k.hold_functions k.board_state = .ok ()) :
    ∃ k' evss,
      k.runUpdates ((t1 :: ts).map (fun t => (true, t))) = .ok (k', evss) ∧
      k'.press_functions = k.press_functions ∧
      k'.release_functions = k.release_functions ∧
      k'.hold_functions = k.hold_functions ∧
      k'.board_state = k.board_state ∧
      k'.debounce = k.debounce ∧
      k'.hold_time = k.hold_time ∧
      k'.last_state = true ∧
      k'.time_of_last_press = t1 ∧
      k'.hold_func_fired = decide (k.hold_time < ts.getLastD t1 - t1) ∧
      k'.press_func_fired
        = (!decide (t1 - k.time_of_last_press < k.debounce)
           || ts.any fun u => !decide (u - t1 < k.debounce)) ∧
      evss.length = ts.length + 1 ∧
      evss.flatten.count KEvent.press
        = (if (!decide (t1 - k.time_of_last_press < k.debounce)
               || ts.any fun u => !decide (u - t1 < k.debounce)) then 1 else 0) ∧
      evss.flatten.count KEvent.release = 0 ∧
      evss.flatten.count KEvent.hold
        = (if ts.any (fun u => decide (k.hold_time < u - t1)) then 1 else 0) := by
  have hupd := Key.update_press_first { k with current_state := true } t1 rfl hls hpf hthf hht hp
  have hstep := Key.step_press_first { k with current_state := true } t1 rfl hls hpf hthf hht
  obtain ⟨k', evss, hrun, hc1, hc2, hc3, hc4, hc5, hc6, hls', htolp', hthf', hhof', hpf',
    hlen, hcp, hcr, hch2⟩ :=
    Key.run_pressed_cont t1 ts
      ({ k with
          current_state := true
          time_since_last_press := t1 - k.time_of_last_press
          key_locked := decide (t1 - k.time_of_last_press < k.debounce)
          key_state := true
          pressed := true
          last_state := true
          press_func_fired := !decide (t1 - k.time_of_last_press < k.debounce)
          time_of_last_press := t1
          time_held_for := 0
          held := false
          hold_func_fired := false }) t1
      rfl rfl (by simp) (by simp [decide_eq_false (not_lt.2 hht)]) hch
      (by simpa using hp) (by simpa using hh)
  refine ⟨k',
    (if decide (t1 - k.time_of_last_press < k.debounce) then [] else [KEvent.press]) :: evss,
    ?_, ?_, ?_, ?_, ?_, ?_, ?_, hls', htolp', ?_, ?_, ?_, ?_, ?_, ?_⟩
  · simp only [List.map_cons, Key.runUpdates, hupd, hstep, hrun]
  · simpa using hc1
  · simpa using hc2
  · simpa using hc3
  · simpa using hc4
  · simpa using hc5
  · simpa using hc6
  · simpa using hhof'
  · rw [hpf']
  · simpa using hlen
  · have hcp' : evss.flatten.count KEvent.press
        = (if (!decide (t1 - k.time_of_last_press < k.debounce)) = true then 0
           else if ts.any (fun v => !decide (v - t1 < k.debounce)) then 1 else 0) := by
      simpa using hcp
    simp only [List.flatten_cons, List.count_append, count_ite_single', hcp']
    by_cases hL : t1 - k.time_of_last_press < k.debounce <;>
      simp [hL]
  · have hcr' : evss.flatten.count KEvent.release = 0 := hcr
    simp only [List.flatten_cons, List.count_append, hcr']
    simp [count_ite_single']
  · have hch2' : evss.flatten.count KEvent.hold
        = (if ts.any (fun v => decide (k.hold_time < v - t1)) then 1 else 0) := by
      simpa using hch2
    simp only [List.flatten_cons, List.count_append, count_ite_single', hch2']
    all_goals by_cases hL : t1 - k.time_of_last_press < k.debounce <;> simp [hL]

theorem chainLt_append (xs : List ℚ) :
    ∀ (a : ℚ) (ys : List ℚ),
    chainLt a (xs ++ ys) = (chainLt a xs && chainLt (xs.getLastD a) ys) := by
  induction xs with
  | nil => intro a ys; simp [chainLt]
  | cons x xs ih =>
    intro a ys
    simp only [List.cons_append, chainLt, List.append_eq, ih x ys, List.getLastD_cons,
      Bool.and_assoc]

theorem getD_append_len {α : Type} (l1 l2 : List α) (d : α) :
    (l1 ++ l2).getD l1.length d = l2.getD 0 d := by
  simp [List.getD, List.getElem?_append_right]

theorem flatten_map_nil (us : List ℚ) :
    (us.map (fun _ => ([] : List KEvent))).flatten = [] := by
  induction us with
  | nil => rfl
  | cons u us ih => simp [ih]

/-- A full press episode followed by a release cycle and further idle cycles:
the key reads pressed at `t1`, stays pressed through `ts`, reads not-pressed
at `u` and through `us`. -/
theorem Key.run_episode_release (k : Key) (t1 : ℚ) (ts : List ℚ) (u : ℚ) (us : List ℚ)
    (hls : k.last_state = false)
    (hpf : k.press_func_fired = false)
    (hthf : k.time_held_for = 0)
    (hht : 0 ≤ k.hold_time)
    (hch : chainLt t1 (ts ++ u :: us) = true)
    (hp : callFunc k.press_functions k.board_state = .ok ())
    (hr : callFunc k.release_functions k.board_state = .ok ())
    (hh : callFunc k.hold_functions k.board_state = .ok ()) :
    ∃ k' evssE,
      k.runUpdates ((t1 :: ts).map (fun t => (true, t)) ++ (u :: us).map (fun t => (false, t)))
        = .ok (k', evssE ++ [KEvent.release] :: us.map (fun _ => ([] : List KEvent))) ∧
      evssE.length = ts.length + 1 ∧
      evssE.flatten.count KEvent.press
        = (if (!decide (t1 - k.time_of_last_press < k.debounce)
               || ts.any fun w => !decide (w - t1 < k.debounce)) then 1 else 0) ∧
      evssE.flatten.count KEvent.release = 0 ∧
      evssE.flatten.count KEvent.hold
        = (if ts.any (fun w => decide (k.hold_time < w - t1)) then 1 else 0) ∧
      k'.press_functions = k.press_functions ∧
      k'.release_functions = k.release_functions ∧
      k'.hold_functions = k.hold_functions ∧
      k'.board_state = k.board_state ∧
      k'.debounce = k.debounce ∧
      k'.hold_time = k.hold_time ∧
      k'.time_of_last_press = t1 ∧
      k'.last_state = false ∧
      k'.press_func_fired = false ∧
      k'.time_held_for = 0 ∧
      k'.held = false ∧
      k'.hold_func_fired = false := by
  have hchsplit : chainLt t1 ts = true ∧ chainLt (ts.getLastD t1) (u :: us) = true := by
    have := chainLt_append ts t1 (u :: us)
    rw [hch] at this
    exact ⟨by
        rcases hc : chainLt t1 ts
        · rw [hc] at this; simp at this
        · rfl,
      by
        rcases hc : chainLt (ts.getLastD t1) (u :: us)
        · rw [hc] at this; simp at this
        · rfl⟩
  obtain ⟨k1, evssE, hrun1, hc1, hc2, hc3, hc4, hc5, hc6, hls1, htolp1, hhof1, hpf1,
    hlen1, hcp1, hcr1, hch1⟩ :=
    Key.run_episode k t1 ts hls hpf hthf hht hchsplit.1 hp hh
  have hht1 : 0 ≤ k1.hold_time := by rw [hc6]; exact hht
  have hupd2 := Key.update_release { k1 with current_state := false } u rfl hls1 hht1
    (by simpa [hc2, hc4] using hr)
  have hstep2 := Key.step_release { k1 with current_state := false } u rfl hls1 hht1
  obtain ⟨k', hrun3, hi1, hi2, hi3, hi4, hi5, hi6, hitolp, hils, hipf, hithf, hiheld, hihof⟩ :=
    Key.run_idle us
      ({ k1 with
          current_state := false
          time_since_last_press := u - k1.time_of_last_press
          key_locked := decide (u - k1.time_of_last_press < k1.debounce)
          key_state := false
          pressed := false
          last_state := false
          press_func_fired := false
          time_held_for := 0
          held := false
          hold_func_fired := false }) rfl rfl hht1
  have hrun2 : k1.runUpdates ((u :: us).map (fun t => (false, t)))
      = .ok (k', [KEvent.release] :: us.map (fun _ => ([] : List KEvent))) := by
    simp only [List.map_cons, Key.runUpdates, hupd2, hstep2, hrun3]
  refine ⟨k', evssE,
    Key.runUpdates_append _ k k1 k' _ _ _ hrun1 hrun2,
    hlen1, ?_, hcr1, ?_, ?_, ?_, ?_, ?_, ?_, ?_, ?_, ?_, ?_, ?_, ?_, ?_⟩
  · exact hcp1
  · exact hch1
  · rw [hi1]; simpa using hc1
  · rw [hi2]; simpa using hc2
  · rw [hi3]; simpa using hc3
  · rw [hi4]; simpa using hc4
  · rw [hi5]; simpa using hc5
  · rw [hi6]; simpa using hc6
  · rw [hitolp]; simpa using htolp1
  · exact hils
  · exact hipf
  · rw [hithf]; simp
  · rw [hiheld]; simp
  · rw [hihof]; simp

/-! ### Evaluation facts about the fixtures -/

theorem callFunc_none_entry :
    callFunc [("default", (none : Option Unit))] "default" = .error PyErr.typeError := rfl

theorem callFunc_some_entry :
    callFunc [("default", (some () : Option Unit))] "default" = .ok () := rfl

theorem testKey_handlers :
    callFunc testKey.press_functions testKey.board_state = .ok () ∧
    callFunc testKey.release_functions testKey.board_state = .ok () ∧
    callFunc testKey.hold_functions testKey.board_state = .ok () := ⟨rfl, rfl, rfl⟩

/-- C2: running `Key.update` on a key whose current mode has no attached press
handler — the always-present `'default'` entry still holding the `None`
placeholder — does not resolve to a no-op: the code evaluates
`self.press_functions[self.board_state](self)`, i.e. `None(self)`, and raises
`TypeError` (a mode absent from the dict would raise `KeyError`).  This
contradicts the claim that a handler lookup with no registered entry is a
no-op and never an error; the cycle aborts with the exception. -/
theorem C2_empty_handler_dispatch_raises :
    kC2.press_functions.lookup kC2.board_state = some none ∧
    kC2.update 1 = .error PyErr.typeError := by
  refine ⟨rfl, ?_⟩
  norm_num [Key.update, kC2, Key.mk0, Key.led_off, Key.set_led, number_to_xy,
    callFunc_none_entry]

/-- C7: for every press episode (pressed at `t1` and through `ts`, released at
`u`) with press, release and hold callbacks attached for the key's current
mode, the hold handler fires exactly once if the accumulated continuous-press
duration `w - t1` exceeds `hold_time` (default 0.75) at some cycle `w` before
release, and never fires otherwise; and `held` / `hold_func_fired` are cleared
on the release cycle. -/
theorem C7_hold_fires_once_iff_threshold (k : Key) (t1 : ℚ) (ts : List ℚ) (u : ℚ)
    (hls : k.last_state = false) (hpf : k.press_func_fired = false)
    (hthf : k.time_held_for = 0) (hht : 0 ≤ k.hold_time)
    (hch : chainLt t1 (ts ++ [u]) = true)
    (hp : callFunc k.press_functions k.board_state = .ok ())
    (hr : callFunc k.release_functions k.board_state = .ok ())
    (hh : callFunc k.hold_functions k.board_state = .ok ()) :
    (k.runUpdates ((t1 :: ts).map (fun t => (true, t)) ++ [(false, u)])).map
        (fun r => (r.2.flatten.count KEvent.hold, r.1.held, r.1.hold_func_fired))
      = .ok ((if ts.any (fun w => decide (k.hold_time < w - t1)) then 1 else 0),
             false, false) := by
  obtain ⟨k', evssE, hrun, hlen, hcp, hcr, hchold, hc1, hc2, hc3, hc4, hc5, hc6, htolp,
    hls', hpf', hthf', hheld', hhof'⟩ :=
    Key.run_episode_release k t1 ts u [] hls hpf hthf hht hch hp hr hh
  simp only [List.map_cons, List.map_nil] at hrun
  simp only [List.map_cons, List.map_nil, hrun]
  simp [Except.map, List.flatten_append, List.count_append, List.count_cons, List.count_nil,
    hchold, hheld', hhof']

/-- Witness for `C7_hold_fires_once_iff_threshold`: a key with callbacks
attached, pressed at `t = 1`, still pressed at `t = 2` (held for `1 > 3/4`),
released at `t = 3`: the hold handler fires exactly once and the hold flags
are clear after the release. -/
theorem C7_witness :
    (testKey.last_state = false ∧ testKey.press_func_fired = false ∧
     testKey.time_held_for = 0 ∧ (0:ℚ) ≤ testKey.hold_time ∧
     chainLt 1 ([2] ++ [3]) = true) ∧
    (testKey.runUpdates (((1:ℚ) :: [2]).map (fun t => (true, t)) ++ [(false, 3)])).map
        (fun r => (r.2.flatten.count KEvent.hold, r.1.held, r.1.hold_func_fired))
      = .ok (1, false, false) := by
  constructor
  · refine ⟨rfl, rfl, rfl, ?_, ?_⟩
    · norm_num [testKey, Key.mk0, Key.led_off, Key.set_led, number_to_xy]
    · norm_num [chainLt]
  · have h := C7_hold_fires_once_iff_threshold testKey 1 [2] 3 rfl rfl rfl
      (by norm_num [testKey, Key.mk0, Key.led_off, Key.set_led, number_to_xy])
      (by norm_num [chainLt])
      testKey_handlers.1 testKey_handlers.2.1 testKey_handlers.2.2
    rw [h]
    norm_num [testKey, Key.mk0, Key.led_off, Key.set_led, number_to_xy]

/-- C5 counterexample: a press episode during which the press handler, though
attached for the key's current mode, fires zero times rather than exactly
once.  `testKey`'s debounce reference time is its construction timestamp `0`;
the key reads pressed at `t = 1/20` (inside the `1/8` debounce window, so the
press dispatch is locked out) and is released at `t = 3/50`, ending the
episode with no press invocation. -/
theorem C5_cex_episode_with_zero_press_fires :
    callFunc testKey.press_functions testKey.board_state = .ok () ∧
    ((1:ℚ)/20 - testKey.time_of_last_press < testKey.debounce) ∧
    (testKey.runUpdates [(true, 1/20), (false, 3/50)]).map
        (fun r => r.2.flatten.count KEvent.press) = .ok 0 := by
  refine ⟨testKey_handlers.1, ?_, ?_⟩
  · norm_num [testKey, Key.mk0, Key.led_off, Key.set_led, number_to_xy]
  · norm_num [Key.runUpdates, Key.update, testKey, Key.mk0, Key.led_off, Key.set_led,
      number_to_xy, callFunc_some_entry, Except.map]
    decide

/-- C5 (amended): over a press episode (pressed at `t1`, held through `ts`,
then reading not-pressed at `u` and through `us`) with press, release and hold
callbacks attached for the key's current mode, the press handler fires at most
once — and exactly once when the episode's first cycle falls at least
`debounce` after the key's recorded last-transition time — while the release
handler fires exactly once, on the first not-pressed cycle
(index `ts.length + 1`), and never on the later not-pressed cycles. -/
theorem C5_amended_press_at_most_once_release_once
    (k : Key) (t1 : ℚ) (ts : List ℚ) (u : ℚ) (us : List ℚ)
    (hls : k.last_state = false) (hpf : k.press_func_fired = false)
    (hthf : k.time_held_for = 0) (hht : 0 ≤ k.hold_time)
    (hch : chainLt t1 (ts ++ u :: us) = true)
    (hp : callFunc k.press_functions k.board_state = .ok ())
    (hr : callFunc k.release_functions k.board_state = .ok ())
    (hh : callFunc k.hold_functions k.board_state = .ok ()) :
    ∃ k' evss,
      k.runUpdates ((t1 :: ts).map (fun t => (true, t)) ++ (u :: us).map (fun t => (false, t)))
        = .ok (k', evss) ∧
      evss.flatten.count KEvent.press ≤ 1 ∧
      (k.debounce ≤ t1 - k.time_of_last_press → evss.flatten.count KEvent.press = 1) ∧
      evss.flatten.count KEvent.release = 1 ∧
      (evss.take (ts.length + 1)).flatten.count KEvent.release = 0 ∧
      evss.getD (ts.length + 1) [] = [KEvent.release] ∧
      (evss.drop (ts.length + 2)).flatten = [] := by
  obtain ⟨k', evssE, hrun, hlen, hcp, hcr, hchold, hc1, hc2, hc3, hc4, hc5, hc6, htolp,
    hls', hpf', hthf', hheld', hhof'⟩ :=
    Key.run_episode_release k t1 ts u us hls hpf hthf hht hch hp hr hh
  have hz : List.count KEvent.press [KEvent.release] = 0 := by decide
  have hz0 : List.count KEvent.press ([] : List KEvent) = 0 := rfl
  have hz2 : List.count KEvent.release [KEvent.release] = 1 := by decide
  have hz3 : List.count KEvent.release ([] : List KEvent) = 0 := rfl
  refine ⟨k', evssE ++ [KEvent.release] :: us.map (fun _ => []), hrun, ?_, ?_, ?_, ?_, ?_, ?_⟩
  · simp only [List.flatten_append, List.flatten_cons, flatten_map_nil, List.count_append,
      hcp, hz, hz0]
    split <;> simp
  · intro hfree
    have hL : decide (t1 - k.time_of_last_press < k.debounce) = false :=
      decide_eq_false (not_lt.2 hfree)
    simp only [List.flatten_append, List.flatten_cons, flatten_map_nil, List.count_append,
      hcp, hz, hz0, hL]
    simp
  · simp only [List.flatten_append, List.flatten_cons, flatten_map_nil, List.count_append,
      hcr, hz2, hz3]
  · rw [← hlen, List.take_left]
    exact hcr
  · rw [← hlen, getD_append_len]
    rfl
  · have : ts.length + 2 = evssE.length + 1 := by omega
    rw [this, List.drop_append]
    simp [flatten_map_nil]

/-- Witness for `C5_amended_press_at_most_once_release_once`: `testKey`
pressed at `t = 1` (well past the debounce window of its construction at time
`0`), released at `t = 2`, still released at `t = 3`. -/
theorem C5_witness :
    (testKey.last_state = false ∧ testKey.press_func_fired = false ∧
     testKey.time_held_for = 0 ∧ (0:ℚ) ≤ testKey.hold_time ∧
     chainLt 1 ([] ++ 2 :: [3]) = true) ∧
    (∃ k' evss,
      testKey.runUpdates (((1:ℚ) :: []).map (fun t => (true, t))
          ++ ((2:ℚ) :: [3]).map (fun t => (false, t)))
        = .ok (k', evss) ∧
      evss.flatten.count KEvent.press ≤ 1 ∧
      (testKey.debounce ≤ 1 - testKey.time_of_last_press →
        evss.flatten.count KEvent.press = 1) ∧
      evss.flatten.count KEvent.release = 1 ∧
      (evss.take 1).flatten.count KEvent.release = 0 ∧
      evss.getD 1 [] = [KEvent.release] ∧
      (evss.drop 2).flatten = []) := by
  constructor
  · refine ⟨rfl, rfl, rfl, ?_, ?_⟩
    · norm_num [testKey, Key.mk0, Key.led_off, Key.set_led, number_to_xy]
    · norm_num [chainLt]
  · exact C5_amended_press_at_most_once_release_once testKey 1 [] 2 [3] rfl rfl rfl
      (by norm_num [testKey, Key.mk0, Key.led_off, Key.set_led, number_to_xy])
      (by norm_num [chainLt])
      testKey_handlers.1 testKey_handlers.2.1 testKey_handlers.2.2

/-- C6 counterexample: `testKey` is pressed at `t = 1` (a recorded transition,
`time_of_last_press := 1`), released at `t = 51/50`, and pressed again at
`t = 21/20`.  Only `1/20 < 1/8 = debounce` has elapsed since the last
recorded transition, yet the key still transitions to pressed
(`key_state = true`, with `time_of_last_press` re-registered at `21/20`): the
debounce window gates only the press-handler dispatch (the third cycle emits
no event), not the transition of the key state itself. -/
theorem C6_cex_key_state_transitions_inside_window :
    (testKey.runUpdates [(true, 1), (false, 51/50), (true, 21/20)]).map
        (fun r => (r.1.key_state, r.1.time_of_last_press, r.2))
      = .ok (true, 21/20, [[KEvent.press], [KEvent.release], []]) ∧
    ((21:ℚ)/20 - 1 < testKey.debounce) := by
  constructor
  · norm_num [Key.runUpdates, Key.update, testKey, Key.mk0, Key.led_off, Key.set_led,
      number_to_xy, callFunc_some_entry, Except.map]
  · norm_num [testKey, Key.mk0, Key.led_off, Key.set_led, number_to_xy]

/-- C6 (amended): (1) the press handler fires on a cycle only if at least
`debounce` has elapsed since the key's recorded last-transition time (the
key's `key_state` itself follows the raw input unconditionally); (2) two press
episodes whose press transitions are separated by less than `debounce`, the
second of which ends while still inside the debounce window of its own
transition, fire the press handler at most once in total. -/
theorem C6_amended_debounce_gates_handler :
    (∀ (k : Key) (now : ℚ) (k' : Key) (evs : List KEvent),
      k.update now = .ok (k', evs) → KEvent.press ∈ evs →
      k.debounce ≤ now - k.time_of_last_press) ∧
    (∀ (k : Key) (t1 : ℚ) (ts1 : List ℚ) (u t3 : ℚ) (ts2 : List ℚ),
      k.last_state = false → k.press_func_fired = false → k.time_held_for = 0 →
      0 ≤ k.hold_time →
      chainLt t1 (ts1 ++ u :: t3 :: ts2) = true →
      t3 - t1 < k.debounce →
      ts2.all (fun w => decide (w - t3 < k.debounce)) = true →
      callFunc k.press_functions k.board_state = .ok () →
      callFunc k.release_functions k.board_state = .ok () →
      callFunc k.hold_functions k.board_state = .ok () →
      ∃ k' evss,
        k.runUpdates (((t1 :: ts1).map (fun t => (true, t)) ++ [(false, u)])
            ++ (t3 :: ts2).map (fun t => (true, t))) = .ok (k', evss) ∧
        evss.flatten.count KEvent.press ≤ 1) := by
  constructor
  · intro k now k' evs h hmem
    by_cases hlt : now - k.time_of_last_press < k.debounce
    · exfalso
      have hL : decide (now - k.time_of_last_press < k.debounce) = true := decide_eq_true hlt
      simp only [Key.update, hL, Bool.not_true, Bool.and_false] at h
      split at h
      · exact absurd h (by simp)
      · split at h
        · exact absurd h (by simp)
        · split at h
          · exact absurd h (by simp)
          · simp only [Except.ok.injEq, Prod.mk.injEq] at h
            obtain ⟨-, rfl⟩ := h
            simp only [Bool.false_eq_true, if_false, List.nil_append, List.mem_append] at hmem
            rcases hmem with hm | hm
            · split at hm <;> simp at hm
            · split at hm <;> simp at hm
    · exact le_of_not_lt hlt
  · intro k t1 ts1 u t3 ts2 hls hpf hthf hht hch hsep hshort hp hr hh
    have hchA := chainLt_append ts1 t1 (u :: t3 :: ts2)
    rw [hch] at hchA
    have hA : chainLt t1 ts1 = true := by
      rcases hc : chainLt t1 ts1
      · rw [hc] at hchA; simp at hchA
      · rfl
    have hrest : chainLt (ts1.getLastD t1) (u :: t3 :: ts2) = true := by
      rcases hc : chainLt (ts1.getLastD t1) (u :: t3 :: ts2)
      · rw [hc] at hchA; simp at hchA
      · rfl
    simp only [chainLt, Bool.and_eq_true, decide_eq_true_eq] at hrest
    have hch1 : chainLt t1 (ts1 ++ [u]) = true := by
      rw [chainLt_append ts1 t1 [u], hA]
      simp only [chainLt, Bool.and_true, Bool.true_and]
      exact decide_eq_true hrest.1
    obtain ⟨k1, evssE, hrun1, hlen1, hcp1, hcr1, hchold1, hc1, hc2, hc3, hc4, hc5, hc6,
      htolp1, hls1, hpf1, hthf1, hheld1, hhof1⟩ :=
      Key.run_episode_release k t1 ts1 u [] hls hpf hthf hht hch1 hp hr hh
    have hht1 : 0 ≤ k1.hold_time := by rw [hc6]; exact hht
    obtain ⟨k2, evss2, hrun2, _, _, _, _, _, _, hls2, htolp2, hhof2, hpf2, hlen2, hcp2,
      hcr2, hch2⟩ :=
      Key.run_episode k1 t3 ts2 hls1 hpf1 hthf1 hht1 hrest.2.2
        (by rw [hc1, hc4]; exact hp) (by rw [hc3, hc4]; exact hh)
    simp only [List.map_cons, List.map_nil] at hrun1
    have htotal := Key.runUpdates_append _ k k1 k2 _ _ _ hrun1 hrun2
    refine ⟨k2, (evssE ++ [[KEvent.release]]) ++ evss2, ?_, ?_⟩
    · simpa [List.cons_append, List.append_assoc] using htotal
    · have hzero : evss2.flatten.count KEvent.press = 0 := by
        rw [hcp2]
        have hd1 : (!decide (t3 - k1.time_of_last_press < k1.debounce)) = false := by
          rw [htolp1, hc5]
          simp [hsep]
        have hd2 : (ts2.any fun w => !decide (w - t3 < k1.debounce)) = false := by
          rw [hc5]
          rw [List.any_eq_false]
          intro w hw
          have := List.all_eq_true.1 hshort w hw
          simp only [decide_eq_true_eq] at this
          simp [this]
        rw [hd1, hd2]
        simp
      have hone : evssE.flatten.count KEvent.press ≤ 1 := by
        rw [hcp1]
        split <;> simp
      have hz : List.count KEvent.press [KEvent.release] = 0 := by decide
      simp only [List.flatten_append, List.flatten_cons, List.flatten_nil, List.append_nil,
        List.count_append, hzero, hz, Nat.add_zero]
      exact hone

/-- Witness for `C6_amended_debounce_gates_handler`: `testKey` pressed at
`t = 1`, released at `t = 21/20`, pressed again at `t = 11/10` — the two press
transitions are separated by `1/10 < 1/8`, and the whole run fires the press
handler at most once. -/
theorem C6_witness :
    (testKey.last_state = false ∧ testKey.press_func_fired = false ∧
     testKey.time_held_for = 0 ∧ (0:ℚ) ≤ testKey.hold_time ∧
     chainLt 1 ([] ++ (21/20 : ℚ) :: (11/10 : ℚ) :: []) = true ∧
     (11:ℚ)/10 - 1 < testKey.debounce ∧
     (List.all [] fun w => decide (w - (11:ℚ)/10 < testKey.debounce)) = true) ∧
    (∃ k' evss,
      testKey.runUpdates ((((1:ℚ) :: []).map (fun t => (true, t)) ++ [(false, 21/20)])
          ++ (((11:ℚ)/10 :: []).map (fun t => (true, t)))) = .ok (k', evss) ∧
      evss.flatten.count KEvent.press ≤ 1) := by
  constructor
  · refine ⟨rfl, rfl, rfl, ?_, ?_, ?_, rfl⟩
    · norm_num [testKey, Key.mk0, Key.led_off, Key.set_led, number_to_xy]
    · norm_num [chainLt]
    · norm_num [testKey, Key.mk0, Key.led_off, Key.set_led, number_to_xy]
  · exact C6_amended_debounce_gates_handler.2 testKey 1 [] (21/20) (11/10) [] rfl rfl rfl
      (by norm_num [testKey, Key.mk0, Key.led_off, Key.set_led, number_to_xy])
      (by norm_num [chainLt])
      (by norm_num [testKey, Key.mk0, Key.led_off, Key.set_led, number_to_xy])
      rfl testKey_handlers.1 testKey_handlers.2.1 testKey_handlers.2.2

/-! ### LED invariant lemmas -/

theorem exists_of_mem_zipWith {α β γ : Type} {f : α → β → γ} :
    ∀ {l1 : List α} {l2 : List β} {c : γ}, c ∈ List.zipWith f l1 l2 → ∃ a b, c = f a b := by
  intro l1
  induction l1 with
  | nil => intro l2 c h; simp at h
  | cons a l1 ih =>
    intro l2 c h
    cases l2 with
    | nil => simp at h
    | cons b l2 =>
      simp only [List.zipWith_cons_cons, List.mem_cons] at h
      rcases h with h | h
      · exact ⟨a, b, h⟩
      · exact ih h

theorem set_led_inv (k : Key) (r g b : ℤ) :
    (k.set_led r g b).lit = true → (k.set_led r g b).rgb ≠ ((0:ℤ), (0:ℤ), (0:ℤ)) := by
  unfold Key.set_led
  split
  · intro h
    exact absurd h (by simp)
  · rename_i hns
    intro _
    exact hns

theorem led_on_inv (k : Key) : k.led_on.lit = true → k.led_on.rgb ≠ ((0:ℤ), (0:ℤ), (0:ℤ)) :=
  set_led_inv k _ _ _

theorem led_off_inv (k : Key) : k.led_off.lit = true → k.led_off.rgb ≠ ((0:ℤ), (0:ℤ), (0:ℤ)) :=
  set_led_inv k 0 0 0

theorem led_state_inv (k : Key) (st : ℤ)
    (hk : k.lit = true → k.rgb ≠ ((0:ℤ), (0:ℤ), (0:ℤ))) :
    (k.led_state st).lit = true → (k.led_state st).rgb ≠ ((0:ℤ), (0:ℤ), (0:ℤ)) := by
  unfold Key.led_state
  split
  · exact led_off_inv k
  · split
    · exact led_on_inv k
    · exact hk

theorem toggle_led_none_inv (k : Key) :
    (k.toggle_led none).lit = true → (k.toggle_led none).rgb ≠ ((0:ℤ), (0:ℤ), (0:ℤ)) := by
  have hdef : k.toggle_led none = if k.lit then k.led_off else k.led_on := rfl
  rw [hdef]
  split
  · exact led_off_inv k
  · exact led_on_inv k

theorem sleep_handler_inv (p : RGBKeyPad) (now : ℚ)
    (hinv : ∀ k ∈ p.keys, k.lit = true → k.rgb ≠ ((0:ℤ), (0:ℤ), (0:ℤ))) :
    ∀ k ∈ (p.sleep_handler now).keys, k.lit = true → k.rgb ≠ ((0:ℤ), (0:ℤ), (0:ℤ)) := by
  intro k hk
  simp only [RGBKeyPad.sleep_handler, RGBKeyPad.set_all] at hk
  repeat' split at hk
  all_goals dsimp only at hk
  all_goals
    first
      | exact hinv k hk
      | (obtain ⟨a, ha, rfl⟩ := List.mem_map.1 hk
         exact led_off_inv a)
      | (obtain ⟨a, c, rfl⟩ := exists_of_mem_zipWith hk
         exact set_led_inv a _ _ _)

theorem toggle_none_lit_true (k : Key) (hl : k.lit = true) : k.toggle_led none = k.led_off := by
  show (if k.lit then k.led_off else k.led_on) = _
  rw [hl]
  simp

theorem toggle_none_lit_false (k : Key) (hl : k.lit = false) : k.toggle_led none = k.led_on := by
  show (if k.lit then k.led_off else k.led_on) = _
  rw [hl]
  simp

theorem led_on_black (k : Key) (hb : k.rgb = ((0:ℤ), (0:ℤ), (0:ℤ))) :
    k.led_on.lit = false ∧ k.led_on.rgb = k.rgb := by
  have h : k.led_on = k.set_led 0 0 0 := by
    show k.set_led k.rgb.1 k.rgb.2.1 k.rgb.2.2 = _
    rw [hb]
  rw [h]
  exact Key.set_led_black k

theorem led_on_nonblack (k : Key) (hb : k.rgb ≠ ((0:ℤ), (0:ℤ), (0:ℤ))) :
    k.led_on.lit = true ∧ k.led_on.rgb = k.rgb := by
  have h := Key.set_led_nonblack k k.rgb.1 k.rgb.2.1 k.rgb.2.2 (fun hc => hb hc)
  exact ⟨h.1, h.2⟩

/-- C9: for every key in a reachable LED state (`lit` implies the remembered
colour is non-black, the invariant every LED operation maintains), calling
`toggle_led` twice with no colour argument restores both the remembered `rgb`
colour and the `lit` flag. -/
theorem C9_toggle_led_round_trip (k : Key)
    (hinv : k.lit = true → k.rgb ≠ ((0:ℤ), (0:ℤ), (0:ℤ))) :
    ((k.toggle_led none).toggle_led none).rgb = k.rgb ∧
    ((k.toggle_led none).toggle_led none).lit = k.lit := by
  rcases hl : k.lit
  · rw [toggle_none_lit_false k hl]
    by_cases hb : k.rgb = ((0:ℤ), (0:ℤ), (0:ℤ))
    · obtain ⟨h1l, h1r⟩ := led_on_black k hb
      rw [toggle_none_lit_false _ h1l]
      obtain ⟨h2l, h2r⟩ := led_on_black k.led_on (h1r.trans hb)
      exact ⟨h2r.trans h1r, h2l⟩
    · obtain ⟨h1l, h1r⟩ := led_on_nonblack k hb
      rw [toggle_none_lit_true _ h1l]
      obtain ⟨h2l, h2r⟩ := Key.set_led_black k.led_on
      exact ⟨h2r.trans h1r, h2l⟩
  · have hb := hinv hl
    rw [toggle_none_lit_true k hl]
    obtain ⟨h1l, h1r⟩ := Key.set_led_black k
    have h1l' : k.led_off.lit = false := h1l
    have h1r' : k.led_off.rgb = k.rgb := h1r
    rw [toggle_none_lit_false _ h1l']
    obtain ⟨h2l, h2r⟩ := led_on_nonblack k.led_off (by rw [h1r']; exact hb)
    exact ⟨h2r.trans h1r', h2l⟩

/-- Witness for `C9_toggle_led_round_trip`: a lit key remembering the colour
`(5, 6, 7)` returns to that colour and to `lit = true` after two toggles. -/
theorem C9_witness :
    (({ kDefault with lit := true, rgb := (5, 6, 7) } : Key).lit = true →
       ({ kDefault with lit := true, rgb := (5, 6, 7) } : Key).rgb ≠ ((0:ℤ), (0:ℤ), (0:ℤ))) ∧
    ((({ kDefault with lit := true, rgb := (5, 6, 7) } : Key).toggle_led none).toggle_led
        none).rgb = ({ kDefault with lit := true, rgb := (5, 6, 7) } : Key).rgb ∧
    ((({ kDefault with lit := true, rgb := (5, 6, 7) } : Key).toggle_led none).toggle_led
        none).lit = ({ kDefault with lit := true, rgb := (5, 6, 7) } : Key).lit := by
  refine ⟨by simp, ?_, ?_⟩
  · exact (C9_toggle_led_round_trip _ (by simp)).1
  · exact (C9_toggle_led_round_trip _ (by simp)).2

/-- C10: the invariant "`lit` implies the remembered `rgb` is non-black" is
kept by `set_led`, `led_on`, `led_off`, `led_state`, argument-less
`toggle_led` and the sleep coordinator; and `set_led` with the black triple
clears `lit` but leaves the remembered `rgb` unchanged, so the last non-black
colour stays available for relighting. -/
theorem C10_lit_implies_nonblack_kept (k0 : Key) (r g b st : ℤ) (p : RGBKeyPad) (now : ℚ)
    (hk0 : k0.lit = true → k0.rgb ≠ ((0:ℤ), (0:ℤ), (0:ℤ)))
    (hp : ∀ k ∈ p.keys, k.lit = true → k.rgb ≠ ((0:ℤ), (0:ℤ), (0:ℤ))) :
    ((k0.set_led r g b).lit = true → (k0.set_led r g b).rgb ≠ ((0:ℤ), (0:ℤ), (0:ℤ))) ∧
    (k0.led_on.lit = true → k0.led_on.rgb ≠ ((0:ℤ), (0:ℤ), (0:ℤ))) ∧
    (k0.led_off.lit = true → k0.led_off.rgb ≠ ((0:ℤ), (0:ℤ), (0:ℤ))) ∧
    ((k0.led_state st).lit = true → (k0.led_state st).rgb ≠ ((0:ℤ), (0:ℤ), (0:ℤ))) ∧
    ((k0.toggle_led none).lit = true → (k0.toggle_led none).rgb ≠ ((0:ℤ), (0:ℤ), (0:ℤ))) ∧
    ((k0.set_led 0 0 0).lit = false ∧ (k0.set_led 0 0 0).rgb = k0.rgb) ∧
    (∀ k ∈ (p.sleep_handler now).keys, k.lit = true → k.rgb ≠ ((0:ℤ), (0:ℤ), (0:ℤ))) :=
  ⟨set_led_inv k0 r g b, led_on_inv k0, led_off_inv k0, led_state_inv k0 st hk0,
   toggle_led_none_inv k0, Key.set_led_black k0, sleep_handler_inv p now hp⟩

/-- Witness for `C10_lit_implies_nonblack_kept`: the invariant instantiated at
the lit key `kLit`, colour `(1, 2, 3)`, state argument `0`, and the one-key
keypad `pW` at time `2`. -/
theorem C10_witness :
    ((kLit.set_led 1 2 3).lit = true → (kLit.set_led 1 2 3).rgb ≠ ((0:ℤ), (0:ℤ), (0:ℤ))) ∧
    (kLit.led_on.lit = true → kLit.led_on.rgb ≠ ((0:ℤ), (0:ℤ), (0:ℤ))) ∧
    (kLit.led_off.lit = true → kLit.led_off.rgb ≠ ((0:ℤ), (0:ℤ), (0:ℤ))) ∧
    ((kLit.led_state 0).lit = true → (kLit.led_state 0).rgb ≠ ((0:ℤ), (0:ℤ), (0:ℤ))) ∧
    ((kLit.toggle_led none).lit = true → (kLit.toggle_led none).rgb ≠ ((0:ℤ), (0:ℤ), (0:ℤ))) ∧
    ((kLit.set_led 0 0 0).lit = false ∧ (kLit.set_led 0 0 0).rgb = kLit.rgb) ∧
    (∀ k ∈ (pW.sleep_handler 2).keys, k.lit = true → k.rgb ≠ ((0:ℤ), (0:ℤ), (0:ℤ))) :=
  C10_lit_implies_nonblack_kept kLit 1 2 3 0 pW 2 (by decide) (by decide)

/-! ### HSV conversion: `hsv_to_rgb` against the spec's sector decomposition -/

theorem intTrunc_eq_floor (x : ℚ) (hx : 0 ≤ x) : intTrunc x = ⌊x⌋ := by
  unfold intTrunc
  rw [Rat.floor_def]
  exact Int.tdiv_eq_ediv (Rat.num_nonneg.2 hx) (Int.ofNat_nonneg _)

theorem intTrunc_channel_bounds (c : ℚ) (h0 : 0 ≤ c) (h1 : c ≤ 1) :
    0 ≤ intTrunc (c * 255) ∧ intTrunc (c * 255) ≤ 255 := by
  have hnn : (0:ℚ) ≤ c * 255 := by positivity
  rw [intTrunc_eq_floor _ hnn]
  refine ⟨Int.floor_nonneg.2 hnn, ?_⟩
  have hle : c * 255 ≤ 255 := by nlinarith
  calc ⌊c * 255⌋ ≤ ⌊(255:ℚ)⌋ := Int.floor_le_floor hle
  _ = 255 := by norm_num

theorem hsv_eq_spec (h s v : ℚ) (hh0 : 0 ≤ h) :
    hsv_to_rgb h s v =
      (intTrunc ((hsvSpecSector h s v).1 * 255),
       intTrunc ((hsvSpecSector h s v).2.1 * 255),
       intTrunc ((hsvSpecSector h s v).2.2 * 255)) := by
  have h6 : (0:ℚ) ≤ h * 6 := by positivity
  have hi0 : intTrunc (h * 6) = ⌊h * 6⌋ := intTrunc_eq_floor _ h6
  simp only [hsv_to_rgb, hsvSpecSector, hi0]
  have hb0 : 0 ≤ ⌊h * 6⌋ % 6 := Int.emod_nonneg _ (by norm_num)
  have hb5 : ⌊h * 6⌋ % 6 < 6 := Int.emod_lt_of_pos _ (by norm_num)
  generalize hm : ⌊h * 6⌋ % 6 = m at hb0 hb5 ⊢
  interval_cases m <;> norm_num

theorem hsvSpecSector_bounds (h s v : ℚ) (hs0 : 0 ≤ s) (hs1 : s ≤ 1)
    (hv0 : 0 ≤ v) (hv1 : v ≤ 1) :
    (0 ≤ (hsvSpecSector h s v).1 ∧ (hsvSpecSector h s v).1 ≤ 1) ∧
    (0 ≤ (hsvSpecSector h s v).2.1 ∧ (hsvSpecSector h s v).2.1 ≤ 1) ∧
    (0 ≤ (hsvSpecSector h s v).2.2 ∧ (hsvSpecSector h s v).2.2 ≤ 1) := by
  have hf0 : (0:ℚ) ≤ h * 6 - ⌊h * 6⌋ := sub_nonneg.2 (Int.floor_le _)
  have hf1 : h * 6 - (⌊h * 6⌋ : ℚ) ≤ 1 := by
    have := Int.lt_floor_add_one (h * 6)
    linarith
  have hsf0 : (0:ℚ) ≤ s * (h * 6 - ⌊h * 6⌋) := mul_nonneg hs0 hf0
  have hsf1 : s * (h * 6 - (⌊h * 6⌋ : ℚ)) ≤ 1 := by nlinarith
  have hsg0 : (0:ℚ) ≤ s * (1 - (h * 6 - ⌊h * 6⌋)) := mul_nonneg hs0 (by linarith)
  have hsg1 : s * (1 - (h * 6 - (⌊h * 6⌋ : ℚ))) ≤ 1 := by nlinarith
  simp only [hsvSpecSector]
  split_ifs <;> dsimp only <;>
    refine ⟨⟨?_, ?_⟩, ⟨?_, ?_⟩, ?_, ?_⟩ <;> nlinarith

theorem hsvSpec_grey (v : ℚ) : hsvSpecSector 0 0 v = (v, v, v) := by
  simp only [hsvSpecSector]
  norm_num

theorem hsvSpec_red : hsvSpecSector 0 1 1 = (1, 0, 0) := by
  simp only [hsvSpecSector]
  norm_num

theorem hsvSpec_green : hsvSpecSector (1/3) 1 1 = (0, 1, 0) := by
  simp only [hsvSpecSector]
  norm_num

/-- C8: for `h`, `s`, `v` in `[0, 1]`, `hsv_to_rgb` agrees with the spec's
six-sector hexagonal decomposition (sector `⌊h·6⌋ mod 6`, fractional part
`f = h·6 − ⌊h·6⌋`, intermediates `p`, `q`, `t` and the sector table), with
each channel the truncation of the sector value scaled by 255 and lying in
`[0, 255]`; in particular `HSV(0,0,v)` is the grey triple, `HSV(0,1,1)` is
`(255,0,0)` and `HSV(1/3,1,1)` is `(0,255,0)`. -/
theorem C8_hsv_six_sector (h s v : ℚ)
    (hh0 : 0 ≤ h) (hh1 : h ≤ 1) (hs0 : 0 ≤ s) (hs1 : s ≤ 1) (hv0 : 0 ≤ v) (hv1 : v ≤ 1) :
    hsv_to_rgb h s v =
      (intTrunc ((hsvSpecSector h s v).1 * 255),
       intTrunc ((hsvSpecSector h s v).2.1 * 255),
       intTrunc ((hsvSpecSector h s v).2.2 * 255)) ∧
    (0 ≤ (hsv_to_rgb h s v).1 ∧ (hsv_to_rgb h s v).1 ≤ 255) ∧
    (0 ≤ (hsv_to_rgb h s v).2.1 ∧ (hsv_to_rgb h s v).2.1 ≤ 255) ∧
    (0 ≤ (hsv_to_rgb h s v).2.2 ∧ (hsv_to_rgb h s v).2.2 ≤ 255) ∧
    hsv_to_rgb 0 0 v = (intTrunc (v * 255), intTrunc (v * 255), intTrunc (v * 255)) ∧
    hsv_to_rgb 0 1 1 = (255, 0, 0) ∧
    hsv_to_rgb (1/3) 1 1 = (0, 255, 0) := by
  obtain ⟨⟨ha0, ha1⟩, ⟨hb0, hb1⟩, hc0, hc1⟩ := hsvSpecSector_bounds h s v hs0 hs1 hv0 hv1
  have heq := hsv_eq_spec h s v hh0
  refine ⟨heq, ?_, ?_, ?_, ?_, ?_, ?_⟩
  · rw [heq]
    exact intTrunc_channel_bounds _ ha0 ha1
  · rw [heq]
    exact intTrunc_channel_bounds _ hb0 hb1
  · rw [heq]
    exact intTrunc_channel_bounds _ hc0 hc1
  · rw [hsv_eq_spec 0 0 v le_rfl, hsvSpec_grey]
  · rw [hsv_eq_spec 0 1 1 le_rfl, hsvSpec_red]
    norm_num [intTrunc_eq_floor]
  · rw [hsv_eq_spec (1/3) 1 1 (by norm_num), hsvSpec_green]
    norm_num [intTrunc_eq_floor]

/-- Witness for `C8_hsv_six_sector` at `h = s = v = 1/2`. -/
theorem C8_witness :
    hsv_to_rgb (1/2) (1/2) (1/2) =
      (intTrunc ((hsvSpecSector (1/2) (1/2) (1/2)).1 * 255),
       intTrunc ((hsvSpecSector (1/2) (1/2) (1/2)).2.1 * 255),
       intTrunc ((hsvSpecSector (1/2) (1/2) (1/2)).2.2 * 255)) ∧
    (0 ≤ (hsv_to_rgb (1/2) (1/2) (1/2)).1 ∧ (hsv_to_rgb (1/2) (1/2) (1/2)).1 ≤ 255) ∧
    (0 ≤ (hsv_to_rgb (1/2) (1/2) (1/2)).2.1 ∧ (hsv_to_rgb (1/2) (1/2) (1/2)).2.1 ≤ 255) ∧
    (0 ≤ (hsv_to_rgb (1/2) (1/2) (1/2)).2.2 ∧ (hsv_to_rgb (1/2) (1/2) (1/2)).2.2 ≤ 255) ∧
    hsv_to_rgb 0 0 (1/2) =
      (intTrunc ((1/2) * 255), intTrunc ((1/2) * 255), intTrunc ((1/2) * 255)) ∧
    hsv_to_rgb 0 1 1 = (255, 0, 0) ∧
    hsv_to_rgb (1/3) 1 1 = (0, 255, 0) :=
  C8_hsv_six_sector (1/2) (1/2) (1/2) (by norm_num) (by norm_num) (by norm_num)
    (by norm_num) (by norm_num) (by norm_num)

/-! ### Sleep redirection of LED writes -/

theorem listModify_getD {α : Type} (l : List α) (n : ℕ) (f : α → α) (d : α)
    (hn : n < l.length) :
    (listModify l n f).getD n d = f (l.getD n d) := by
  induction l generalizing n with
  | nil => simp at hn
  | cons a t ih =>
    cases n with
    | zero => rfl
    | succ m =>
      simp only [listModify, List.getD_cons_succ]
      exact ih m (by simpa using hn)

theorem pW_sleep_eq :
    pW.sleep_handler 2 =
      { pW with time_since_last_press := 2 - 0
                sleeping := true
                was_asleep := true
                last_led_states := some [((5:ℤ), 6, 7)]
                keys := [kLit.led_off] } := by
  have hap : pW.any_pressed = false := by decide
  have hlt : ((1:ℚ) < 2 - 0) = True := eq_true (by norm_num)
  have hlit : kLit.lit = true := by decide
  have hrgb : kLit.rgb = ((5:ℤ), 6, 7) := by decide
  have hen : pW.led_sleep_enabled = true := rfl
  have hsl : pW.sleeping = false := rfl
  have htolp : pW.time_of_last_press = 0 := rfl
  have hlst : pW.led_sleep_time = 1 := rfl
  have hkeys : pW.keys = [kLit] := rfl
  simp only [RGBKeyPad.sleep_handler, RGBKeyPad.set_all, hap, hen, hsl, htolp, hlst,
    hkeys, hlt, Bool.false_eq_true, if_false, if_true, List.map_cons, List.map_nil,
    hlit, hrgb, Bool.and_self, Bool.not_true, Bool.false_and, Bool.and_false,
    Bool.true_and, Bool.and_true, Bool.not_false]

/-- C3 counterexample: after the one-key keypad `pW` falls asleep at time `2`
(its lit key is blanked and the keypad reports `sleeping`), the keypad-level
`set_led` nevertheless writes the requested colour `(10, 20, 30)` straight to
the physical pixel and marks the key lit — the sleep redirection covers only
`set_all`. -/
theorem C3_cex_set_led_ignores_sleep :
    (pW.sleep_handler 2).sleeping = true ∧
    (pW.sleep_handler 2).keys.map (fun k => k.pixel) = [((0:ℤ), 0, 0)] ∧
    ((pW.sleep_handler 2).set_led 0 10 20 30).sleeping = true ∧
    ((pW.sleep_handler 2).set_led 0 10 20 30).keys.map (fun k => k.pixel) =
      [((10:ℤ), 20, 30)] ∧
    ((pW.sleep_handler 2).set_led 0 10 20 30).keys.map (fun k => k.lit) = [true] := by
  rw [pW_sleep_eq]
  exact ⟨rfl, by decide, rfl, by decide, by decide⟩

/-- C3 (amended): while sleeping, `set_all` requests are redirected to off —
every pixel is written black and no key is left lit — but the keypad-level
`set_led` bypasses the sleep check entirely and writes the requested colour to
the addressed key's pixel. -/
theorem C3_amended_only_set_all_redirected (p : RGBKeyPad) (r g b : ℤ) (n : ℕ)
    (hs : p.sleeping = true) (hn : n < p.keys.length) :
    (p.set_all r g b).keys.map (fun k => k.pixel) = p.keys.map (fun _ => ((0:ℤ), 0, 0)) ∧
    (p.set_all r g b).keys.map (fun k => k.lit) = p.keys.map (fun _ => false) ∧
    ((p.set_led n r g b).keys.getD n kDefault).pixel = (r, g, b) := by
  have hall : p.set_all r g b = { p with keys := p.keys.map (fun k => k.led_off) } := by
    simp only [RGBKeyPad.set_all, hs, Bool.not_true, Bool.false_eq_true, if_false]
  refine ⟨?_, ?_, ?_⟩
  · rw [hall]
    simp only [List.map_map]
    apply List.map_congr_left
    intro k _
    exact Key.set_led_pixel k 0 0 0
  · rw [hall]
    simp only [List.map_map]
    apply List.map_congr_left
    intro k _
    exact (Key.set_led_black k).1
  · show ((listModify p.keys n (fun k => k.set_led r g b)).getD n kDefault).pixel = _
    rw [listModify_getD p.keys n _ kDefault hn]
    exact Key.set_led_pixel _ r g b

/-- Witness for `C3_amended_only_set_all_redirected`: the sleeping one-key
keypad reached by `pW.sleep_handler 2`, colour `(10, 20, 30)`, index `0`. -/
theorem C3_witness :
    (pW.sleep_handler 2).sleeping = true ∧ 0 < (pW.sleep_handler 2).keys.length ∧
    (((pW.sleep_handler 2).set_all 10 20 30).keys.map (fun k => k.pixel) =
      (pW.sleep_handler 2).keys.map (fun _ => ((0:ℤ), 0, 0)) ∧
    ((pW.sleep_handler 2).set_all 10 20 30).keys.map (fun k => k.lit) =
      (pW.sleep_handler 2).keys.map (fun _ => false) ∧
    (((pW.sleep_handler 2).set_led 0 10 20 30).keys.getD 0 kDefault).pixel = (10, 20, 30)) := by
  refine ⟨?_, ?_, C3_amended_only_set_all_redirected (pW.sleep_handler 2) 10 20 30 0 ?_ ?_⟩ <;>
    rw [pW_sleep_eq] <;> decide

/-! ### Keypad update: mask-derived states versus what keys actually see -/

set_option maxHeartbeats 2000000 in
theorem Key.update_state_passthrough (k : Key) (now : ℚ) (k' : Key) (evs : List KEvent)
    (h : k.update now = .ok (k', evs)) :
    k'.key_state = k.current_state ∧ k'.current_state = k.current_state := by
  simp only [Key.update] at h
  repeat' split at h
  all_goals simp only [Except.ok.injEq, Prod.mk.injEq, reduceCtorEq] at h
  all_goals obtain ⟨rfl, rfl⟩ := h
  all_goals refine ⟨?_, ?_⟩ <;>
    simp only [apply_ite Key.key_state, apply_ite Key.current_state, ite_self]

theorem readMaskStates_getD (mask i : ℕ) (hi : i < 16) :
    (readMaskStates mask).getD i false = !(Nat.testBit mask i) := by
  have hlen : i < (readMaskStates mask).length := by
    simpa [readMaskStates] using hi
  rw [List.getD_eq_getElem _ _ hlen]
  simp only [readMaskStates, List.getElem_map, List.getElem_range]
  rw [Nat.shiftLeft_eq, one_mul, Nat.two_pow_and]
  cases htb : mask.testBit i <;> simp [htb, Nat.pow_eq_zero]

theorem keysUpdate_states (ks : List Key) (now : ℚ) (ks' : List Key)
    (h : keysUpdate ks now = .ok ks') :
    ks'.map (fun k => k.key_state) = ks.map (fun k => k.current_state) ∧
    ks'.map (fun k => k.current_state) = ks.map (fun k => k.current_state) := by
  induction ks generalizing ks' with
  | nil =>
    simp only [keysUpdate, Except.ok.injEq] at h
    subst h
    exact ⟨rfl, rfl⟩
  | cons k rest ih =>
    simp only [keysUpdate] at h
    cases hu : k.update now with
    | error e =>
      rw [hu] at h
      exact absurd h (by simp)
    | ok v =>
      obtain ⟨k1, evs⟩ := v
      rw [hu] at h
      dsimp only at h
      cases hr : keysUpdate rest now with
      | error e =>
        rw [hr] at h
        exact absurd h (by simp)
      | ok rest1 =>
        rw [hr] at h
        dsimp only at h
        simp only [Except.ok.injEq] at h
        subst h
        obtain ⟨hks, hcs⟩ := Key.update_state_passthrough k now k1 evs hu
        obtain ⟨ih1, ih2⟩ := ih rest1 hr
        simp [hks, hcs, ih1, ih2]

theorem sleep_handler_preserve (p : RGBKeyPad) (now : ℚ) (hwa : p.was_asleep = false) :
    (p.sleep_handler now).states = p.states ∧
    (p.sleep_handler now).keys.map (fun k => k.key_state) = p.keys.map (fun k => k.key_state) ∧
    (p.sleep_handler now).keys.map (fun k => k.current_state) =
      p.keys.map (fun k => k.current_state) := by
  have hpt1 : ∀ a : Key, a.led_off.key_state = a.key_state :=
    fun a => (Key.set_led_key_state a 0 0 0).1
  have hpt2 : ∀ a : Key, a.led_off.current_state = a.current_state :=
    fun a => (Key.set_led_key_state a 0 0 0).2
  simp only [RGBKeyPad.sleep_handler, RGBKeyPad.set_all]
  repeat' split
  all_goals dsimp only
  all_goals simp_all [hpt1, hpt2]

/-- C1: the mask-to-state conversion inside `Keypad.update` is correct (bit
`i` equal to `0` marks key `i` pressed), and the recomputed `states` list is
stored on the keypad — but the per-key loop calls each key's `update` without
ever writing the mask-derived state into the key, so after the cycle each
key's `key_state` equals its stale `current_state`, independent of the mask.
Concretely, on a fresh one-key keypad a mask reporting key 0 pressed yields
`states[0] = true` while the key's `key_state` stays `false`. -/
theorem C1_mask_states_never_reach_keys :
    (∀ mask i : ℕ, i < 16 →
      (readMaskStates mask).getD i false = !(Nat.testBit mask i)) ∧
    (∀ (p : RGBKeyPad) (mask : ℕ) (now : ℚ) (p' : RGBKeyPad),
      p.was_asleep = false → p.update mask now = .ok p' →
        p'.states = readMaskStates mask ∧
        p'.keys.map (fun k => k.key_state) = p.keys.map (fun k => k.current_state)) ∧
    (pC1.update 65534 1).map
        (fun r => (r.states.getD 0 false, r.keys.map (fun k => k.key_state))) =
      .ok (true, [false]) := by
  refine ⟨readMaskStates_getD, ?_, ?_⟩
  · intro p mask now p' hwa hup
    simp only [RGBKeyPad.update] at hup
    cases hk : keysUpdate p.keys now with
    | error e =>
      rw [hk] at hup
      exact absurd hup (by simp)
    | ok keys1 =>
      rw [hk] at hup
      dsimp only at hup
      simp only [Except.ok.injEq] at hup
      subst hup
      obtain ⟨hs, hks, -⟩ :=
        sleep_handler_preserve { p with states := readMaskStates mask, keys := keys1 } now hwa
      refine ⟨hs, ?_⟩
      rw [hks]
      exact (keysUpdate_states p.keys now keys1 hk).1
  · have hht : (0:ℚ) ≤ kDefault.hold_time := by
      have h34 : kDefault.hold_time = 3 / 4 := rfl
      rw [h34]
      norm_num
    have hidle : kDefault.update 1 = .ok ((kDefault.step 1).1, (kDefault.step 1).2) :=
      Key.update_idle kDefault 1 (by decide) (by decide) hht
    have hku : keysUpdate [kDefault] 1 = .ok [(kDefault.step 1).1] := by
      simp only [keysUpdate]
      rw [hidle]
    have hup1 : pC1.update 65534 1 =
        .ok (RGBKeyPad.sleep_handler
              { pC1 with states := readMaskStates 65534, keys := [(kDefault.step 1).1] } 1) := by
      simp only [RGBKeyPad.update]
      have hkeq : pC1.keys = [kDefault] := rfl
      rw [hkeq, hku]
    rw [hup1]
    obtain ⟨hs, hks, -⟩ :=
      sleep_handler_preserve
        { pC1 with states := readMaskStates 65534, keys := [(kDefault.step 1).1] } 1 rfl
    simp only [Except.map, hs, hks, List.map_cons, List.map_nil, Except.ok.injEq,
      Prod.mk.injEq]
    exact ⟨by decide, by decide⟩

/-- Witness for `C1_mask_states_never_reach_keys`: the mask-bit fact at
`mask = 65534`, `i = 0`, and the update fact at the keypad `pE` at time `1`. -/
theorem C1_witness :
    (readMaskStates 65534).getD 0 false = !(Nat.testBit 65534 0) ∧
    pE.was_asleep = false ∧ pE.update 65534 1 = .ok pE2 ∧
    pE2.states = readMaskStates 65534 ∧
    pE2.keys.map (fun k => k.key_state) = pE.keys.map (fun k => k.current_state) := by
  have hup : pE.update 65534 1 = .ok pE2 := rfl
  exact ⟨C1_mask_states_never_reach_keys.1 65534 0 (by decide), rfl, hup,
    (C1_mask_states_never_reach_keys.2.1 pE 65534 1 pE2 rfl hup).1,
    (C1_mask_states_never_reach_keys.2.1 pE 65534 1 pE2 rfl hup).2⟩

/-! ### Sleep entry, while-asleep operations, and wake restoration -/

theorem listModify_length {α : Type} (l : List α) (n : ℕ) (f : α → α) :
    (listModify l n f).length = l.length := by
  induction l generalizing n with
  | nil => rfl
  | cons a t ih =>
    cases n with
    | zero => rfl
    | succ m => simpa [listModify] using ih m

theorem map_pixel_zipWith (ks : List Key) (cs : List (ℤ × ℤ × ℤ)) (h : ks.length = cs.length) :
    (List.zipWith (fun k c => Key.set_led k c.1 c.2.1 c.2.2) ks cs).map (fun k => k.pixel) =
      cs := by
  induction ks generalizing cs with
  | nil =>
    cases cs with
    | nil => rfl
    | cons c cs' => simp at h
  | cons k ks' ih =>
    cases cs with
    | nil => simp at h
    | cons c cs' =>
      simp only [List.zipWith_cons_cons, List.map_cons, List.length_cons] at h ⊢
      refine congrArg₂ _ ?_ (ih cs' (by omega))
      exact Key.set_led_pixel k c.1 c.2.1 c.2.2

theorem any_pressed_false (q : RGBKeyPad) (hks : ∀ k ∈ q.keys, k.key_state = false) :
    q.any_pressed = false := by
  simp only [RGBKeyPad.any_pressed, RGBKeyPad.get_states, List.any_eq_false]
  intro b hb
  obtain ⟨k, hk, rfl⟩ := List.mem_map.1 hb
  simp [hks k hk]

theorem set_all_sleeping (q : RGBKeyPad) (r g b : ℤ) (hsl : q.sleeping = true) :
    q.set_all r g b = { q with keys := q.keys.map (fun k => k.led_off) } := by
  simp only [RGBKeyPad.set_all, hsl, Bool.not_true, Bool.false_eq_true, if_false]

theorem sleep_cycle_asleep (q : RGBKeyPad) (t : ℚ) (hsl : q.sleeping = true)
    (hap : q.any_pressed = false) :
    q.sleep_handler t = { q with time_since_last_press := t - q.time_of_last_press } := by
  simp only [RGBKeyPad.sleep_handler, hap, hsl, Bool.false_eq_true, if_false, Bool.not_true,
    Bool.and_false, Bool.false_and, Bool.true_and, Bool.and_true]

theorem sleep_entry (p : RGBKeyPad) (t1 : ℚ)
    (hsl : p.sleeping = false) (hwa : p.was_asleep = false) (hen : p.led_sleep_enabled = true)
    (hks : ∀ k ∈ p.keys, k.key_state = false)
    (hT : p.led_sleep_time < t1 - p.time_of_last_press) :
    p.sleep_handler t1 =
      { p with
          time_since_last_press := t1 - p.time_of_last_press
          sleeping := true
          was_asleep := true
          last_led_states :=
            some (p.keys.map (fun k => if k.lit then k.rgb else ((0:ℤ), (0:ℤ), (0:ℤ))))
          keys := p.keys.map (fun k => k.led_off) } := by
  have hap : p.any_pressed = false := any_pressed_false p hks
  have hlt : (p.led_sleep_time < t1 - p.time_of_last_press) = True := eq_true hT
  simp only [RGBKeyPad.sleep_handler, RGBKeyPad.set_all, hap, hsl, hen, hlt,
    Bool.false_eq_true, if_false, if_true, Bool.not_false, Bool.not_true, Bool.true_and,
    Bool.and_true, Bool.false_and, Bool.and_false, Bool.and_self]

theorem applySleepOps_preserve (ops : List SleepOp) (q : RGBKeyPad)
    (hsl : q.sleeping = true) (hks : ∀ k ∈ q.keys, k.key_state = false) :
    (q.applySleepOps ops).sleeping = true ∧
    (q.applySleepOps ops).was_asleep = q.was_asleep ∧
    (q.applySleepOps ops).led_sleep_enabled = q.led_sleep_enabled ∧
    (q.applySleepOps ops).led_sleep_time = q.led_sleep_time ∧
    (q.applySleepOps ops).last_led_states = q.last_led_states ∧
    (q.applySleepOps ops).keys.length = q.keys.length ∧
    (∀ k ∈ (q.applySleepOps ops).keys, k.key_state = false) := by
  induction ops generalizing q with
  | nil => exact ⟨hsl, rfl, rfl, rfl, rfl, rfl, hks⟩
  | cons op rest ih =>
    cases op with
    | setAll r g b =>
      have hall := set_all_sleeping q r g b hsl
      have h2 : ∀ k ∈ (q.keys.map (fun k => k.led_off)), k.key_state = false := by
        intro k hk
        obtain ⟨a, ha, rfl⟩ := List.mem_map.1 hk
        exact ((Key.set_led_key_state a 0 0 0).1).trans (hks a ha)
      obtain ⟨i1, i2, i3, i4, i5, i6, i7⟩ :=
        ih { q with keys := q.keys.map (fun k => k.led_off) } hsl h2
      simp only [RGBKeyPad.applySleepOps, hall]
      exact ⟨i1, i2, i3, i4, i5, i6.trans (List.length_map _ _), i7⟩
    | cycle t =>
      have hcyc := sleep_cycle_asleep q t hsl (any_pressed_false q hks)
      obtain ⟨i1, i2, i3, i4, i5, i6, i7⟩ :=
        ih { q with time_since_last_press := t - q.time_of_last_press } hsl hks
      simp only [RGBKeyPad.applySleepOps, hcyc]
      exact ⟨i1, i2, i3, i4, i5, i6, i7⟩

theorem any_pressed_pressAt (q : RGBKeyPad) (i : ℕ) (hi : i < q.keys.length) :
    (q.pressAt i).any_pressed = true := by
  simp only [RGBKeyPad.any_pressed, RGBKeyPad.get_states, RGBKeyPad.pressAt, List.any_eq_true]
  have hlen : i < (listModify q.keys i (fun k => { k with key_state := true })).length := by
    rw [listModify_length]
    exact hi
  refine ⟨true, ?_, rfl⟩
  have hmem : (listModify q.keys i (fun k => { k with key_state := true })).getD i kDefault ∈
      listModify q.keys i (fun k => { k with key_state := true }) := by
    rw [List.getD_eq_getElem _ _ hlen]
    exact List.getElem_mem hlen
  have hval : ((listModify q.keys i (fun k => { k with key_state := true })).getD i
      kDefault).key_state = true := by
    rw [listModify_getD _ _ _ _ hi]
  exact List.mem_map.2 ⟨_, hmem, hval⟩

theorem sleep_wake (q : RGBKeyPad) (t2 : ℚ) (i : ℕ) (snap : List (ℤ × ℤ × ℤ))
    (hsl : q.sleeping = true) (hwa : q.was_asleep = true) (hen : q.led_sleep_enabled = true)
    (hT : 0 ≤ q.led_sleep_time) (hlls : q.last_led_states = some snap)
    (hlen : q.keys.length = snap.length) (hi : i < q.keys.length) :
    ((q.pressAt i).sleep_handler t2).sleeping = false ∧
    ((q.pressAt i).sleep_handler t2).was_asleep = false ∧
    ((q.pressAt i).sleep_handler t2).keys.map (fun k => k.pixel) = snap := by
  have hap : (q.pressAt i).any_pressed = true := any_pressed_pressAt q i hi
  have hnt : (q.led_sleep_time < t2 - t2) = False := by
    refine eq_false ?_
    have hz : t2 - t2 = (0:ℚ) := by ring
    rw [hz]
    exact not_lt.2 hT
  have hsh : (q.pressAt i).sleep_handler t2 =
      { q.pressAt i with
          time_of_last_press := t2
          time_since_last_press := t2 - t2
          sleeping := false
          was_asleep := false
          keys := List.zipWith (fun k c => Key.set_led k c.1 c.2.1 c.2.2)
                    (q.pressAt i).keys snap } := by
    have hsl' : (q.pressAt i).sleeping = q.sleeping := rfl
    have hwa' : (q.pressAt i).was_asleep = true := hwa
    have hen' : (q.pressAt i).led_sleep_enabled = true := hen
    have hlls' : (q.pressAt i).last_led_states = some snap := hlls
    have hlst : (q.pressAt i).led_sleep_time = q.led_sleep_time := rfl
    simp only [RGBKeyPad.sleep_handler, hap, hwa', hen', hlls', hlst, hnt,
      Option.getD_some, if_true, if_false, Bool.not_false, Bool.not_true, Bool.true_and,
      Bool.and_true, Bool.false_and, Bool.and_false, Bool.and_self]
  rw [hsh]
  refine ⟨rfl, rfl, ?_⟩
  apply map_pixel_zipWith
  show (q.pressAt i).keys.length = snap.length
  rw [RGBKeyPad.pressAt]
  simpa [listModify_length] using hlen

/-- C4: with sleep enabled, timeout `T ≥ 0` and no key pressed, once more than
`T` elapses since the last press the sleep coordinator blanks every LED and
saves a snapshot of the pre-sleep colours (black for unlit keys); afterwards,
for any sequence of while-asleep `set_all` requests and coordinator cycles,
the first cycle in which any key reports pressed wakes the keypad (the wake
check runs before the timeout check) and restores every key's pixel to
exactly its snapshot entry. -/
theorem C4_sleep_snapshot_restore (p : RGBKeyPad) (t1 : ℚ)
    (hsl : p.sleeping = false) (hwa : p.was_asleep = false) (hen : p.led_sleep_enabled = true)
    (hT0 : 0 ≤ p.led_sleep_time) (hT : p.led_sleep_time < t1 - p.time_of_last_press)
    (hks : ∀ k ∈ p.keys, k.key_state = false) :
    ((p.sleep_handler t1).sleeping = true ∧
     (p.sleep_handler t1).last_led_states =
       some (p.keys.map (fun k => if k.lit then k.rgb else ((0:ℤ), (0:ℤ), (0:ℤ)))) ∧
     (p.sleep_handler t1).keys.map (fun k => k.pixel) =
       p.keys.map (fun _ => ((0:ℤ), (0:ℤ), (0:ℤ))) ∧
     (p.sleep_handler t1).keys.map (fun k => k.lit) = p.keys.map (fun _ => false)) ∧
    (∀ (ops : List SleepOp) (i : ℕ) (t2 : ℚ), i < p.keys.length →
      ((((p.sleep_handler t1).applySleepOps ops).pressAt i).sleep_handler t2).sleeping =
        false ∧
      ((((p.sleep_handler t1).applySleepOps ops).pressAt i).sleep_handler t2).was_asleep =
        false ∧
      ((((p.sleep_handler t1).applySleepOps ops).pressAt i).sleep_handler t2).keys.map
          (fun k => k.pixel) =
        p.keys.map (fun k => if k.lit then k.rgb else ((0:ℤ), (0:ℤ), (0:ℤ)))) := by
  have hentry := sleep_entry p t1 hsl hwa hen hks hT
  constructor
  · rw [hentry]
    refine ⟨rfl, rfl, ?_, ?_⟩
    · rw [List.map_map]
      exact List.map_congr_left (fun k _ => Key.set_led_pixel k 0 0 0)
    · rw [List.map_map]
      exact List.map_congr_left (fun k _ => (Key.set_led_black k).1)
  · intro ops i t2 hi
    rw [hentry]
    have hks2 : ∀ k ∈ (p.keys.map (fun k => k.led_off)), k.key_state = false := by
      intro k hk
      obtain ⟨a, ha, rfl⟩ := List.mem_map.1 hk
      exact ((Key.set_led_key_state a 0 0 0).1).trans (hks a ha)
    obtain ⟨i1, i2, i3, i4, i5, i6, i7⟩ :=
      applySleepOps_preserve ops
        { p with
            time_since_last_press := t1 - p.time_of_last_press
            sleeping := true
            was_asleep := true
            last_led_states :=
              some (p.keys.map (fun k => if k.lit then k.rgb else ((0:ℤ), (0:ℤ), (0:ℤ))))
            keys := p.keys.map (fun k => k.led_off) } rfl hks2
    have hlen2 :
        ((({ p with
              time_since_last_press := t1 - p.time_of_last_press
              sleeping := true
              was_asleep := true
              last_led_states :=
                some (p.keys.map (fun k => if k.lit then k.rgb else ((0:ℤ), (0:ℤ), (0:ℤ))))
              keys := p.keys.map (fun k => k.led_off) } : RGBKeyPad).applySleepOps
            ops)).keys.length =
          (p.keys.map (fun k => if k.lit then k.rgb else ((0:ℤ), (0:ℤ), (0:ℤ)))).length := by
    
      rw [i6]
      simp
    exact sleep_wake _ t2 i _ i1 (i2.trans rfl) (i3.trans hen)
      (le_of_le_of_eq hT0 i4.symm) (i5.trans rfl) hlen2 (by rw [i6]; simpa using hi)

/-- Witness for `C4_sleep_snapshot_restore`: the one-key keypad `pW` (lit key,
timeout `1`) falls asleep at `t = 2`; a `set_all 9 9 9` issued while asleep,
then a press of key `0` at `t = 3`, wakes it with the snapshot restored. -/
theorem C4_witness :
    ((pW.sleep_handler 2).sleeping = true ∧
     (pW.sleep_handler 2).last_led_states =
       some (pW.keys.map (fun k => if k.lit then k.rgb else ((0:ℤ), (0:ℤ), (0:ℤ)))) ∧
     (pW.sleep_handler 2).keys.map (fun k => k.pixel) =
       pW.keys.map (fun _ => ((0:ℤ), (0:ℤ), (0:ℤ))) ∧
     (pW.sleep_handler 2).keys.map (fun k => k.lit) = pW.keys.map (fun _ => false)) ∧
    ((((pW.sleep_handler 2).applySleepOps [SleepOp.setAll 9 9 9]).pressAt 0).sleep_handler
        3).sleeping = false ∧
    ((((pW.sleep_handler 2).applySleepOps [SleepOp.setAll 9 9 9]).pressAt 0).sleep_handler
        3).was_asleep = false ∧
    ((((pW.sleep_handler 2).applySleepOps [SleepOp.setAll 9 9 9]).pressAt 0).sleep_handler
        3).keys.map (fun k => k.pixel) =
      pW.keys.map (fun k => if k.lit then k.rgb else ((0:ℤ), (0:ℤ), (0:ℤ))) := by
  have hT0 : (0:ℚ) ≤ pW.led_sleep_time := by
    have h1 : pW.led_sleep_time = 1 := rfl
    rw [h1]
    norm_num
  have hT : pW.led_sleep_time < 2 - pW.time_of_last_press := by
    have h1 : pW.led_sleep_time = 1 := rfl
    have h2 : pW.time_of_last_press = 0 := rfl
    rw [h1, h2]
    norm_num
  have h := C4_sleep_snapshot_restore pW 2 rfl rfl rfl hT0 hT (by decide)
  exact ⟨h.1, h.2 [SleepOp.setAll 9 9 9] 0 3 (by decide)⟩
